import Mathlib

/-!
# Verification of vault0: transaction-history sync engine, keystore, secp256k1 curve

Shallow embedding of the parts of the vault0 repository that the verified
properties speak about:

* `internal/services/transaction/history.go` — the transaction history
  synchronization engine (`historyService`): monitored-address map, per-address
  `StartBlock` watermark, per-type sub-fetches, transform/persist loop, bounded
  event channel with non-blocking send.
* `keystore` (DBKeyStore) — create/import/list/update/delete/sign over a
  row-per-key table, with private key material encrypted at rest.
* the secp256k1 affine curve arithmetic (`Add`/`Double`), modelled from the
  specification since only its test file is part of the provided sources.

External collaborators (block explorer, transformer pipeline, token store,
repository failure behaviour, key generator, encryptor, hash/signature
primitives) are abstracted as environment records of total/`Except`-valued
functions; the embedded service code is translated statement by statement.
Concurrency is modelled by the sequential semantics of one sync cycle, which is
faithful because the Go code snapshots the address set before any I/O and no
two cycles run concurrently.
-/

/-! ## Transaction history synchronization engine (history.go) -/

/-- Transaction type requested from a block explorer
(`blockexplorer.TxTypeNormal` / `blockexplorer.TxTypeERC20`). -/
inductive TxKind where
  | normal
  | erc20
deriving DecidableEq

/-- `types.Address`: chain type plus checksum-formatted address string. -/
structure Address where
  chain : String
  checksum : String
deriving DecidableEq

/-- A raw/core transaction as far as the sync engine inspects it: its hash, its
block number and (for token transfers) the token contract address stashed in
metadata (`ERC20TokenAddressMetadataKey`). -/
structure Tx where
  hash : String
  blockNumber : Nat
  tokenAddress : Option String
deriving DecidableEq

/-- `TransactionEvent`: (transaction, isNew) pair emitted on the history
events channel. -/
structure TransactionEvent where
  tx : Tx
  isNew : Bool
deriving DecidableEq

/-- `addressSyncInfo`: the address plus its current `StartBlock` watermark. -/
structure AddressSyncInfo where
  address : Address
  startBlock : Nat
deriving DecidableEq

/-- The mutable state of `historyService` together with the repository rows and
the bounded event channel. Log lists record the `log.Warn` / `log.Error` /
"Fetching transaction history" calls the Go code makes; `fetchLog` keeps
`(address key, tx type, start_block)` of every explorer fetch. -/
structure SyncState where
  syncAddresses : List (String × AddressSyncInfo)
  repo : List (String × Tx)
  chan : List TransactionEvent
  fetchLog : List (String × TxKind × Nat)
  warnLog : List String
  errorLog : List String
deriving DecidableEq

/-- The external collaborators of one sync cycle.  `explorer` is
`GetTransactionHistory` restricted to the arguments the engine passes (type,
start block); `explorerOk` is whether `blockExplorerFactory.NewExplorer`
succeeds for a chain; `transform` is the transformer pipeline (`nil` result =
`none`); `fromCore` is `FromCoreTransaction`; `tokenValid` abstracts the token
store lookup made by `isValidERC20Token`; the three `*Fails` oracles give the
outcome of the corresponding repository calls for a given hash. -/
structure SyncEnv where
  explorerOk : String → Bool
  explorer : Address → TxKind → Nat → Except Unit (List Tx)
  transform : Tx → Option Tx
  fromCore : Tx → Option Tx
  tokenValid : String → Bool
  getByHashFails : String → Bool
  createFails : String → Bool
  updateFails : String → Bool

/-- `strings.ToLower` (ASCII case folding, which is all hex addresses need),
written structurally so that concrete instances evaluate. -/
def lowerString (s : String) : String := ⟨s.data.map Char.toLower⟩

/-- `deriveAddressKey`: `"<chainType>:<lowercased checksum address>"`. -/
def deriveAddressKey (a : Address) : String :=
  a.chain ++ ":" ++ lowerString a.checksum

/-- First-match lookup in the monitored-address map (Go map read). -/
def lookupKey (k : String) : List (String × AddressSyncInfo) → Option AddressSyncInfo
  | [] => none
  | (k', v) :: rest => if k' = k then some v else lookupKey k rest

/-- In-place update of the entry at key `k` (Go map write of an existing key). -/
def setEntry (k : String) (n : Nat) :
    List (String × AddressSyncInfo) → List (String × AddressSyncInfo)
  | [] => []
  | (k', v) :: rest =>
    if k' = k then (k', { v with startBlock := n }) :: rest
    else (k', v) :: setEntry k n rest

/-- `getStartBlock`: current watermark of an address, defaulting to 0 when the
address is (unexpectedly) not monitored. -/
def getStartBlock (s : SyncState) (a : Address) : Nat :=
  match lookupKey (deriveAddressKey a) s.syncAddresses with
  | some info => info.startBlock
  | none => 0

/-- `setStartBlock`: writes the watermark of a monitored address; warns and
leaves the map unchanged when the address is not monitored. -/
def setStartBlock (s : SyncState) (a : Address) (n : Nat) : SyncState :=
  match lookupKey (deriveAddressKey a) s.syncAddresses with
  | none => { s with warnLog := s.warnLog ++ ["Address not found in syncAddresses"] }
  | some _ => { s with syncAddresses := setEntry (deriveAddressKey a) n s.syncAddresses }

/-- `MonitorAddress`: registers an address with its initial watermark; a second
registration of an already-monitored address returns `nil` without touching
anything. -/
def monitorAddress (s : SyncState) (a : Address) (startBlockNumber : Nat) :
    SyncState × Except Unit Unit :=
  match lookupKey (deriveAddressKey a) s.syncAddresses with
  | some _ => (s, .ok ())
  | none =>
    ({ s with syncAddresses :=
        s.syncAddresses ++ [(deriveAddressKey a, ⟨a, startBlockNumber⟩)] }, .ok ())

/-- The non-blocking send on the bounded (capacity 100) history events channel:
`select { case ch <- e: ... default: log.Warn(...) }`. -/
def publishEvent (s : SyncState) (e : TransactionEvent) : SyncState :=
  if s.chan.length < 100 then { s with chan := s.chan ++ [e] }
  else { s with warnLog := s.warnLog ++ ["History events channel is full, dropping event"] }

/-- `isValidERC20Token`: token contract address must be present in metadata and
recognized by the token store. -/
def isValidERC20Token (env : SyncEnv) (t : Tx) : Bool :=
  match t.tokenAddress with
  | none => false
  | some addr => env.tokenValid addr

/-- Repository lookup by hash (`repository.GetByHash`). -/
def lookupRepo (h : String) : List (String × Tx) → Option Tx
  | [] => none
  | (h', v) :: rest => if h' = h then some v else lookupRepo h rest

/-- Repository in-place update of the row with the given hash. -/
def updateRepo (h : String) (t : Tx) : List (String × Tx) → List (String × Tx)
  | [] => []
  | (h', v) :: rest =>
    if h' = h then (h', t) :: rest else (h', v) :: updateRepo h t rest

/-- The body of the per-transaction loop of `syncTransactionsForAddressByType`:
transform, ERC20 token check, convert, upsert by hash, emit event; every
failure is logged and skips to the next item. -/
def processItem (env : SyncEnv) (kind : TxKind) (s : SyncState) (item : Tx) : SyncState :=
  match env.transform item with
  | none => { s with warnLog := s.warnLog ++ ["Transaction is nil after transformation, skipping"] }
  | some t =>
    if kind = TxKind.erc20 ∧ ¬ isValidERC20Token env t = true then s
    else
      match env.fromCore t with
      | none => { s with errorLog := s.errorLog ++ ["Failed to convert transaction to service model"] }
      | some serviceTx =>
        if env.getByHashFails serviceTx.hash then
          { s with errorLog := s.errorLog ++ ["Error checking for existing transaction"] }
        else
          match lookupRepo serviceTx.hash s.repo with
          | some _ =>
            if env.updateFails serviceTx.hash then
              { s with errorLog := s.errorLog ++ ["Failed to update transaction"] }
            else
              publishEvent { s with repo := updateRepo serviceTx.hash serviceTx s.repo }
                ⟨t, false⟩
          | none =>
            if env.createFails serviceTx.hash then
              { s with errorLog := s.errorLog ++ ["Failed to create transaction"] }
            else
              publishEvent { s with repo := s.repo ++ [(serviceTx.hash, serviceTx)] }
                ⟨t, true⟩

/-- `syncTransactionsForAddressByType`: one sub-fetch.  Reads the watermark,
fetches up to one page of that type from the explorer, runs the per-item loop,
then advances the watermark to (last returned block number + 1). -/
def syncTransactionsForAddressByType (env : SyncEnv) (s : SyncState) (a : Address)
    (kind : TxKind) : SyncState × Except Unit Unit :=
  if ¬ env.explorerOk a.chain then
    ({ s with errorLog := s.errorLog ++ ["Failed to get explorer for chain"] }, .error ())
  else
    let startBlock := getStartBlock s a
    let s1 := { s with fetchLog := s.fetchLog ++ [(deriveAddressKey a, kind, startBlock)] }
    match env.explorer a kind startBlock with
    | .error _ =>
      ({ s1 with errorLog := s1.errorLog ++ ["Failed to get transaction history"] }, .error ())
    | .ok items =>
      if items.isEmpty then (s1, .ok ())
      else
        let s2 := items.foldl (processItem env kind) s1
        let latest := ((items.getLast?).map Tx.blockNumber).getD 0
        (setStartBlock s2 a (latest + 1), .ok ())

/-- `s.log.Error(msg); continue`: appends an error-log line when the previous
step returned an error, and otherwise changes nothing. -/
def logOnError (s : SyncState) (r : Except Unit Unit) (msg : String) : SyncState :=
  match r with
  | .error _ => { s with errorLog := s.errorLog ++ [msg] }
  | .ok _ => s

/-- `syncTransactionsForAddress`: normal transactions first, then ERC20
transfers; a failing sub-fetch is logged and the other one still runs; the
function always returns `nil`. -/
def syncTransactionsForAddress (env : SyncEnv) (s : SyncState) (a : Address) :
    SyncState × Except Unit Unit :=
  let r1 := syncTransactionsForAddressByType env s a TxKind.normal
  let s1 := logOnError r1.1 r1.2 "Failed to sync normal transactions for address"
  let r2 := syncTransactionsForAddressByType env s1 a TxKind.erc20
  let s2 := logOnError r2.1 r2.2 "Failed to sync ERC20 transactions for address"
  (s2, .ok ())

/-- `syncTransactions`: one sync cycle.  Snapshots the monitored addresses and
processes each in turn; a per-address error is logged and skipped (dead code in
practice, since `syncTransactionsForAddress` always returns `nil`); the cycle
itself reports nothing to its caller. -/
def syncTransactions (env : SyncEnv) (s : SyncState) : SyncState :=
  let addresses := s.syncAddresses.map (fun kv => kv.2.address)
  addresses.foldl
    (fun st a =>
      let r := syncTransactionsForAddress env st a
      logOnError r.1 r.2 "Failed to sync history for address")
    s

/-- The watermark a single sub-fetch leaves for a monitored address, as a
function of the environment and the watermark it started from: unchanged when
the explorer (or its factory) fails or returns nothing, otherwise the last
returned transaction's block number + 1. -/
def nextWatermark (env : SyncEnv) (a : Address) (kind : TxKind) (w : Nat) : Nat :=
  if ¬ env.explorerOk a.chain then w
  else
    match env.explorer a kind w with
    | .error _ => w
    | .ok items =>
      if items.isEmpty then w
      else ((items.getLast?).map Tx.blockNumber).getD 0 + 1

/-- The effect of one loop iteration of the per-item loop on the pair
(repository rows, channel contents).  Derived from `processItem`: the loop
writes logs besides, but its persistent effect factors through this pure
function of the repository and the channel alone. -/
def itemEffect (env : SyncEnv) (kind : TxKind)
    (rc : List (String × Tx) × List TransactionEvent) (it : Tx) :
    List (String × Tx) × List TransactionEvent :=
  match env.transform it with
  | none => rc
  | some t =>
    if kind = TxKind.erc20 ∧ ¬ isValidERC20Token env t = true then rc
    else
      match env.fromCore t with
      | none => rc
      | some serviceTx =>
        if env.getByHashFails serviceTx.hash then rc
        else
          match lookupRepo serviceTx.hash rc.1 with
          | some _ =>
            if env.updateFails serviceTx.hash then rc
            else (updateRepo serviceTx.hash serviceTx rc.1,
                  if rc.2.length < 100 then rc.2 ++ [⟨t, false⟩] else rc.2)
          | none =>
            if env.createFails serviceTx.hash then rc
            else (rc.1 ++ [(serviceTx.hash, serviceTx)],
                  if rc.2.length < 100 then rc.2 ++ [⟨t, true⟩] else rc.2)

/-- The effect of one loop iteration on the repository rows alone.  The
repository outcome of the loop never depends on the channel contents: a full
channel drops the event but the row is still written. -/
def repoStep (env : SyncEnv) (kind : TxKind) (r : List (String × Tx)) (it : Tx) :
    List (String × Tx) :=
  match env.transform it with
  | none => r
  | some t =>
    if kind = TxKind.erc20 ∧ ¬ isValidERC20Token env t = true then r
    else
      match env.fromCore t with
      | none => r
      | some serviceTx =>
        if env.getByHashFails serviceTx.hash then r
        else
          match lookupRepo serviceTx.hash r with
          | some _ =>
            if env.updateFails serviceTx.hash then r
            else updateRepo serviceTx.hash serviceTx r
          | none =>
            if env.createFails serviceTx.hash then r
            else r ++ [(serviceTx.hash, serviceTx)]

/-- The monitored-address map a sub-fetch leaves behind, as a function of the
map it started from. -/
def mapAfterSub (env : SyncEnv) (a : Address) (kind : TxKind)
    (m : List (String × AddressSyncInfo)) : List (String × AddressSyncInfo) :=
  let w := match lookupKey (deriveAddressKey a) m with
    | some v => v.startBlock
    | none => 0
  if ¬ env.explorerOk a.chain then m
  else
    match env.explorer a kind w with
    | .error _ => m
    | .ok items =>
      if items.isEmpty then m
      else
        match lookupKey (deriveAddressKey a) m with
        | none => m
        | some _ =>
          setEntry (deriveAddressKey a) (((items.getLast?).map Tx.blockNumber).getD 0 + 1) m

/-- The (repository, channel) pair a sub-fetch leaves behind, as a function of
the map (for the watermark), the repository and the channel it started from. -/
def subFetchEffect (env : SyncEnv) (a : Address) (kind : TxKind)
    (m : List (String × AddressSyncInfo))
    (rc : List (String × Tx) × List TransactionEvent) :
    List (String × Tx) × List TransactionEvent :=
  let w := match lookupKey (deriveAddressKey a) m with
    | some v => v.startBlock
    | none => 0
  if ¬ env.explorerOk a.chain then rc
  else
    match env.explorer a kind w with
    | .error _ => rc
    | .ok items => if items.isEmpty then rc else items.foldl (itemEffect env kind) rc

/-- The error outcome of a sub-fetch, a function of the map and environment. -/
def subFetchResult (env : SyncEnv) (a : Address) (kind : TxKind)
    (m : List (String × AddressSyncInfo)) : Except Unit Unit :=
  let w := match lookupKey (deriveAddressKey a) m with
    | some v => v.startBlock
    | none => 0
  if ¬ env.explorerOk a.chain then .error ()
  else
    match env.explorer a kind w with
    | .error _ => .error ()
    | .ok _ => .ok ()

/-- The explorer returned at least one transaction when asked for this type at
this watermark. -/
def returnedNonempty (env : SyncEnv) (a : Address) (kind : TxKind) (w : Nat) : Prop :=
  ∃ items, env.explorer a kind w = .ok items ∧ items ≠ []

/-- Some transaction was returned by the explorer for address `a` during one
cycle that started with watermark `w0`: either by the normal-type fetch at
`w0`, or by the ERC20-type fetch at the watermark the normal fetch left. -/
def anyTxReturned (env : SyncEnv) (a : Address) (w0 : Nat) : Prop :=
  env.explorerOk a.chain = true ∧
    (returnedNonempty env a TxKind.normal w0 ∨
      returnedNonempty env a TxKind.erc20 (nextWatermark env a TxKind.normal w0))

/-- Well-formedness of the monitored-address map, maintained by
`MonitorAddress`/`UnmonitorAddress`: keys are distinct (it is a Go map) and
every entry is stored under the key derived from its own address. -/
def WFState (s : SyncState) : Prop :=
  (s.syncAddresses.map Prod.fst).Nodup ∧
    ∀ kv ∈ s.syncAddresses, kv.1 = deriveAddressKey kv.2.address

/-! ### Concrete fixtures used by counterexample and witness theorems -/

/-- Address fixture for the C1 counterexample. -/
def cexAddr : Address := ⟨"ethereum", "0xAAAA"⟩

/-- A transaction at block 10 whose persistence will be made to fail. -/
def cexTx : Tx := ⟨"h1", 10, none⟩

/-- Environment for the C1 counterexample: the explorer returns one
transaction, and `repository.Create` fails for it. -/
def cexEnv : SyncEnv where
  explorerOk := fun _ => true
  explorer := fun _ _ _ => .ok [cexTx]
  transform := fun t => some t
  fromCore := fun t => some t
  tokenValid := fun _ => false
  getByHashFails := fun _ => false
  createFails := fun _ => true
  updateFails := fun _ => false

/-- State for the C1 counterexample: one monitored address with watermark 5. -/
def cexState : SyncState := ⟨[(deriveAddressKey cexAddr, ⟨cexAddr, 5⟩)], [], [], [], [], []⟩

/-- Address fixture for witnesses of the sync-engine claims. -/
def wAddr : Address := ⟨"ethereum", "0xBBBB"⟩

/-- Witness environment: the explorer always returns exactly one transaction
whose block number equals the queried start block; everything succeeds. -/
def wEnv : SyncEnv where
  explorerOk := fun _ => true
  explorer := fun _ _ sb => .ok [⟨"wh", sb, none⟩]
  transform := fun t => some t
  fromCore := fun t => some t
  tokenValid := fun _ => true
  getByHashFails := fun _ => false
  createFails := fun _ => false
  updateFails := fun _ => false

/-- Witness state: one monitored address with watermark 3. -/
def wState : SyncState := ⟨[(deriveAddressKey wAddr, ⟨wAddr, 3⟩)], [], [], [], [], []⟩

/-- Witness transaction and event. -/
def wTx : Tx := ⟨"wh", 3, none⟩

/-- Witness event. -/
def wEvent : TransactionEvent := ⟨wTx, true⟩

/-- Witness state whose event channel is saturated (100 queued events). -/
def fullChanState : SyncState :=
  { wState with chan := List.replicate 100 wEvent }

/-- Second address fixture (the failing one in the C5 witness). -/
def wAddrA : Address := ⟨"ethereum", "0xCCCC"⟩

/-- Witness environment for partial-failure isolation: explorer calls for
`wAddrA` error, everything else behaves like `wEnv`. -/
def wEnvC5 : SyncEnv :=
  { wEnv with
    explorer := fun a _kind sb =>
      if a = wAddrA then .error () else .ok [⟨"wh", sb, none⟩] }

/-- Witness state with two monitored addresses: the failing `wAddrA` at
watermark 7 and the healthy `wAddr` at watermark 3. -/
def wStateC5 : SyncState :=
  ⟨[(deriveAddressKey wAddrA, ⟨wAddrA, 7⟩), (deriveAddressKey wAddr, ⟨wAddr, 3⟩)],
    [], [], [], [], []⟩

/-! ## Keystore (DBKeyStore, keystore package) -/

/-- `types.KeyType`. -/
inductive KeyType where
  | ecdsa
  | rsa
  | ed25519
  | symmetric
deriving DecidableEq

/-- `keystore.DataType`: whether `Sign` receives a raw message (hash first)
or an already-computed digest. -/
inductive DataType where
  | raw
  | digest
deriving DecidableEq

/-- The error codes the keystore maps failures to (`internal/errors`). -/
inductive KsErr where
  | resourceNotFound
  | databaseError
  | invalidKeyType
  | invalidKey
  | signingError
  | encryptionError
deriving DecidableEq

/-- One row of the `keys` table / the `Key` struct.  `privateKey` holds
whatever bytes were handed to the INSERT — the theorems show it is always the
encryptor's output. -/
structure KeyRow where
  id : Nat
  name : String
  keyType : KeyType
  curve : String
  tags : List (String × String)
  createdAt : Nat
  privateKey : List Nat
  publicKey : List Nat
deriving DecidableEq

/-- The keystore database: the `keys` table, the Snowflake-ID counter, and
the set of key ids still referenced by a wallet (`walletRefs`, used by the
spec-modelled Delete guard). -/
structure KsDB where
  rows : List KeyRow
  nextId : Nat
  walletRefs : List Nat
deriving DecidableEq

/-- The keystore's collaborators: key generator (4.3), AES encryptor (4.2) and
the crypto primitives used by `signData` (SHA-256, per-key-type signing with
parsing and output encoding folded in, each fallible as in Go). -/
structure KsEnv where
  generateKeyPair : KeyType → String → Except KsErr (List Nat × List Nat)
  encrypt : List Nat → Except KsErr (List Nat)
  decrypt : List Nat → Except KsErr (List Nat)
  now : Nat
  sha256 : List Nat → List Nat
  ecdsaSign : String → List Nat → List Nat → Except KsErr (List Nat)
  rsaSign : List Nat → List Nat → Except KsErr (List Nat)
  ed25519Sign : List Nat → List Nat → Except KsErr (List Nat)
  hmacSha256 : List Nat → List Nat → List Nat

/-- The "default to P-256 when ECDSA and no curve given" rule shared by
`Create` and `Import`. -/
def resolveCurve (kt : KeyType) (curve : Option String) : Option String :=
  if kt = KeyType.ecdsa ∧ curve = none then some "P-256" else curve

/-- Row lookup by id (`SELECT … WHERE id = ?`). -/
def findRow (id : Nat) : List KeyRow → Option KeyRow
  | [] => none
  | r :: rest => if r.id = id then some r else findRow id rest

/-- `DBKeyStore.Create` (ksCreate; `Create` itself is not a usable Lean name
here): generate material, encrypt the private part, insert one row holding
encrypted-private and plaintext-public parts; the returned `Key` carries the
same encrypted bytes.  Failures leave the table untouched. -/
def ksCreate (env : KsEnv) (db : KsDB) (name : String) (kt : KeyType)
    (curve : Option String) (tags : List (String × String)) :
    Except KsErr KeyRow × KsDB :=
  let curve := resolveCurve kt curve
  let keyId := db.nextId
  match env.generateKeyPair kt (curve.getD "") with
  | .error e => (.error e, db)
  | .ok (privateKey, publicKey) =>
    match env.encrypt privateKey with
    | .error e => (.error e, db)
    | .ok encryptedPrivateKey =>
      let key : KeyRow :=
        ⟨keyId, name, kt, curve.getD "", tags, env.now, encryptedPrivateKey, publicKey⟩
      (.ok key, { db with rows := db.rows ++ [key], nextId := db.nextId + 1 })

/-- `DBKeyStore.Import` (ksImport): same persistence path as Create but with
caller-supplied material; the private part is encrypted before the INSERT. -/
def ksImport (env : KsEnv) (db : KsDB) (name : String) (kt : KeyType)
    (curve : Option String) (privateKey publicKey : List Nat)
    (tags : List (String × String)) : Except KsErr KeyRow × KsDB :=
  match env.encrypt privateKey with
  | .error e => (.error e, db)
  | .ok encryptedPrivateKey =>
    let curveName := (resolveCurve kt curve).getD ""
    let keyId := db.nextId
    let key : KeyRow :=
      ⟨keyId, name, kt, curveName, tags, env.now, encryptedPrivateKey, publicKey⟩
    (.ok key, { db with rows := db.rows ++ [key], nextId := db.nextId + 1 })

/-- `DBKeyStore.GetPublicKey` (ksGetPublicKey): the SELECT omits the
`private_key` column, so the scanned `Key` has empty private material. -/
def ksGetPublicKey (db : KsDB) (id : Nat) : Except KsErr KeyRow :=
  match findRow id db.rows with
  | none => .error .resourceNotFound
  | some row => .ok { row with privateKey := [] }

/-- Insertion into an id-ascending list (used to model `ORDER BY id ASC`). -/
def insertSorted (r : KeyRow) : List KeyRow → List KeyRow
  | [] => [r]
  | x :: xs => if r.id ≤ x.id then r :: x :: xs else x :: insertSorted r xs

/-- `ORDER BY id ASC` as an insertion sort. -/
def sortById (l : List KeyRow) : List KeyRow := l.foldr insertSorted []

/-- `DBKeyStore.List` (ksList): default limit 50 when ≤ 0, `id > token`
filter, id-ascending order, fetch limit+1 rows to detect a further page,
return a next token holding the last returned id iff more remain.  The SELECT
omits `private_key`. -/
def ksList (db : KsDB) (limit0 : Int) (nextToken : Option Nat) :
    List KeyRow × Option Nat :=
  let limit : Nat := if limit0 ≤ 0 then 50 else limit0.toNat
  let base : List KeyRow :=
    match nextToken with
    | none => db.rows
    | some tk => db.rows.filter (fun r => tk < r.id)
  let visible := base.map (fun r => { r with privateKey := [] })
  let sorted := sortById visible
  let fetched := sorted.take (limit + 1)
  if limit < fetched.length then
    (fetched.take limit, ((fetched.take limit).getLast?).map KeyRow.id)
  else (fetched, none)

/-- `DBKeyStore.Update` (ksUpdate): metadata-only UPDATE; existence is decided
by the affected-row count, not a pre-read; the updated public view is then
re-read. -/
def ksUpdate (db : KsDB) (id : Nat) (name : String)
    (tags : List (String × String)) : Except KsErr KeyRow × KsDB :=
  let newRows :=
    db.rows.map (fun r => if r.id = id then { r with name := name, tags := tags } else r)
  let rowsAffected := (db.rows.filter (fun r => r.id = id)).length
  let db' := { db with rows := newRows }
  if rowsAffected = 0 then (.error .resourceNotFound, db')
  else
    match ksGetPublicKey db' id with
    | .error e => (.error e, db')
    | .ok k => (.ok k, db')

/-- Modelled from the spec: "destroyed via `Delete`, rejected if a wallet
still references it".  The wallets table and its constraint on key ids are
not among the provided sources (only the keystore file is), so the reference
check is modelled as membership of the id in the wallet-referenced set. -/
def walletReferences (db : KsDB) (id : Nat) : Bool :=
  db.walletRefs.contains id

/-- `DBKeyStore.Delete` (ksDelete): the DELETE statement fails with a database
error while a wallet still references the key (spec-modelled constraint,
`walletReferences`); otherwise zero affected rows mean `ResourceNotFound`. -/
def ksDelete (db : KsDB) (id : Nat) : Except KsErr Unit × KsDB :=
  if (findRow id db.rows).isSome ∧ walletReferences db id = true then
    (.error .databaseError, db)
  else
    let newRows := db.rows.filter (fun r => ¬ r.id = id)
    if db.rows.length = newRows.length then (.error .resourceNotFound, db)
    else (.ok (), { db with rows := newRows })

/-- `signWithECDSA`: SHA-256 first if the data is raw; curve-specific private
key parsing and ASN.1 encoding are folded into the environment primitive. -/
def signWithECDSA (env : KsEnv) (privateKeyBytes data : List Nat) (dt : DataType)
    (curveName : String) : Except KsErr (List Nat) :=
  let hash := if dt = DataType.raw then env.sha256 data else data
  env.ecdsaSign curveName privateKeyBytes hash

/-- `signWithRSA`: SHA-256 first if raw, then PKCS#1 v1.5 signing. -/
def signWithRSA (env : KsEnv) (privateKeyBytes data : List Nat) (dt : DataType) :
    Except KsErr (List Nat) :=
  let hash := if dt = DataType.raw then env.sha256 data else data
  env.rsaSign privateKeyBytes hash

/-- `signData`: dispatch by key type.  Ed25519 signs the raw message (no
pre-hash); symmetric keys HMAC-SHA256 the data.  (The Go default
invalid-key-type branch is unreachable over this closed enum.) -/
def signData (env : KsEnv) (kt : KeyType) (privateKeyBytes data : List Nat)
    (dt : DataType) (curveName : String) : Except KsErr (List Nat) :=
  match kt with
  | .ecdsa => signWithECDSA env privateKeyBytes data dt curveName
  | .rsa => signWithRSA env privateKeyBytes data dt
  | .ed25519 => env.ed25519Sign privateKeyBytes data
  | .symmetric => .ok (env.hmacSha256 privateKeyBytes data)

/-- `DBKeyStore.Sign` (ksSign): load the row, decrypt the private key in
memory, dispatch by key type; nothing is written back (the function does not
even return a database). -/
def ksSign (env : KsEnv) (db : KsDB) (id : Nat) (data : List Nat)
    (dt : DataType) : Except KsErr (List Nat) :=
  match findRow id db.rows with
  | none => .error .resourceNotFound
  | some row =>
    match env.decrypt row.privateKey with
    | .error e => .error e
    | .ok privateKey => signData env row.keyType privateKey data dt row.curve

/-- Keystore witness environment: small invertible byte transformations. -/
def kEnv : KsEnv where
  generateKeyPair := fun _ _ => .ok ([1, 2], [3, 4])
  encrypt := fun priv => .ok (0 :: priv)
  decrypt := fun c => .ok c.tail
  now := 1000
  sha256 := fun d => 9 :: d
  ecdsaSign := fun _ _ h => .ok (7 :: h)
  rsaSign := fun _ h => .ok (8 :: h)
  ed25519Sign := fun _ d => .ok (6 :: d)
  hmacSha256 := fun _ d => 5 :: d

/-- Keystore witness row: id 1, already-encrypted private bytes. -/
def kRow : KeyRow := ⟨1, "k1", KeyType.ecdsa, "P-256", [], 500, [0, 1, 2], [3, 4]⟩

/-- Keystore witness database with one key and no wallet references. -/
def kDB : KsDB := ⟨[kRow], 2, []⟩

/-- Keystore witness database where a wallet still references key 1. -/
def kDBRef : KsDB := ⟨[kRow], 2, [1]⟩

/-! ## secp256k1 affine arithmetic (crypto package) -/

/-- The secp256k1 field prime p = 2^256 - 2^32 - 977 (curve parameter `P`,
from SEC 2, asserted by `TestSecp256k1Initialization`). -/
def secpP : Int :=
  115792089237316195423570985008687907853269984665640564039457584007908834671663

/-- `big.Int.ModInverse(a, m)`: the extended-Euclid inverse normalized into
`[0, m)`, and `none` when `a` is not invertible modulo `m` — Go returns `nil`
then, and the curve code would dereference it (the panic exercised by the
test's `addUnsafe`/`doubleUnsafe`). -/
def modInverse (a m : Int) : Option Int :=
  if Int.gcd a m = 1 then some ((Nat.gcdA a.toNat m.toNat) % m) else none

/-- Modelled from the spec: the secp256k1 implementation
(`internal/core/crypto/secp256k1.go`) is not among the provided sources —
only its test file is.  `Double` follows §4.1: y = 0 (the point-at-infinity
representation included) returns the point at infinity; otherwise the standard
affine doubling formula with the slope 3x²/(2y) computed via modular inverse,
exactly the algebra mirrored by the test's `doubleUnsafe`; a non-invertible
denominator is the Go nil-dereference panic, modelled as `none`. -/
def secpDouble (x1 y1 : Int) : Option (Int × Int) :=
  if y1 = 0 then some (0, 0)
  else
    let num := (3 * x1 * x1) % secpP
    let den := (2 * y1) % secpP
    match modInverse den secpP with
    | none => none
    | some inv =>
      let l := (num * inv) % secpP
      let x3 := (l * l - 2 * x1) % secpP
      let y3 := (l * (x1 - x3) - y1) % secpP
      some (x3, y3)

/-- Modelled from the spec: the generic affine-addition case of `Add`
(secp256k1.go is not among the provided sources — only its test file is):
the slope Δy/Δx computed via modular inverse, mirroring the algebra of the
test's `addUnsafe`; an inverse of a non-invertible Δx is the Go panic,
modelled as `none`. -/
def secpAddGeneral (x1 y1 x2 y2 : Int) : Option (Int × Int) :=
  let dx := (x2 - x1) % secpP
  let dy := (y2 - y1) % secpP
  match modInverse dx secpP with
  | none => none
  | some inv =>
    let l := (dy * inv) % secpP
    let x3 := (l * l - x1 - x2) % secpP
    let y3 := (l * (x1 - x3) - y1) % secpP
    some (x3, y3)

/-- Modelled from the spec: `Add` (secp256k1.go is not among the provided
sources) handles all edge cases before generic affine addition, per §4.1 and
the cases exercised by `TestAdd`: either input being the point-at-infinity
representation (0,0) returns the other point; identical points delegate to
`Double`; a point added to its own negation (same x, y values summing to p)
returns (0,0); otherwise the generic slope-based case runs. -/
def secpAdd (x1 y1 x2 y2 : Int) : Option (Int × Int) :=
  if x1 = 0 ∧ y1 = 0 then some (x2, y2)
  else if x2 = 0 ∧ y2 = 0 then some (x1, y1)
  else if x1 = x2 ∧ y1 = y2 then secpDouble x1 y1
  else if x1 = x2 ∧ y1 + y2 = secpP then some (0, 0)
  else secpAddGeneral x1 y1 x2 y2

/-! ### Basic frame lemmas for the sync engine -/

theorem processItem_syncAddresses (env : SyncEnv) (kind : TxKind) (s : SyncState) (item : Tx) :
    (processItem env kind s item).syncAddresses = s.syncAddresses := by
  unfold processItem publishEvent
  repeat' split
  all_goals rfl

theorem processItem_fetchLog (env : SyncEnv) (kind : TxKind) (s : SyncState) (item : Tx) :
    (processItem env kind s item).fetchLog = s.fetchLog := by
  unfold processItem publishEvent
  repeat' split
  all_goals rfl

theorem foldl_processItem_syncAddresses (env : SyncEnv) (kind : TxKind) :
    ∀ (items : List Tx) (s : SyncState),
      (items.foldl (processItem env kind) s).syncAddresses = s.syncAddresses := by
  intro items
  induction items with
  | nil => intro s; rfl
  | cons i rest ih =>
    intro s
    rw [List.foldl_cons, ih, processItem_syncAddresses]

theorem foldl_processItem_fetchLog (env : SyncEnv) (kind : TxKind) :
    ∀ (items : List Tx) (s : SyncState),
      (items.foldl (processItem env kind) s).fetchLog = s.fetchLog := by
  intro items
  induction items with
  | nil => intro s; rfl
  | cons i rest ih =>
    intro s
    rw [List.foldl_cons, ih, processItem_fetchLog]

theorem lookupKey_setEntry_self (k : String) (n : Nat) :
    ∀ l : List (String × AddressSyncInfo),
      lookupKey k (setEntry k n l) = (lookupKey k l).map (fun v => { v with startBlock := n }) := by
  intro l
  induction l with
  | nil => rfl
  | cons kv rest ih =>
    obtain ⟨k', v⟩ := kv
    by_cases h : k' = k
    · simp [setEntry, lookupKey, h]
    · simp [setEntry, lookupKey, h, ih]

theorem lookupKey_setEntry_ne (k k' : String) (n : Nat) (h : k' ≠ k) :
    ∀ l : List (String × AddressSyncInfo),
      lookupKey k' (setEntry k n l) = lookupKey k' l := by
  intro l
  induction l with
  | nil => rfl
  | cons kv rest ih =>
    obtain ⟨k0, v⟩ := kv
    by_cases h0 : k0 = k
    · subst h0
      simp [setEntry, lookupKey, Ne.symm h, ih]
    · by_cases h1 : k0 = k'
      · subst h1
        simp [setEntry, lookupKey, h0, h]
      · simp [setEntry, lookupKey, h0, h1, ih]

theorem setStartBlock_lookup_self (s : SyncState) (a : Address) (n : Nat) :
    lookupKey (deriveAddressKey a) (setStartBlock s a n).syncAddresses
      = (lookupKey (deriveAddressKey a) s.syncAddresses).map (fun v => { v with startBlock := n }) := by
  unfold setStartBlock
  cases h : lookupKey (deriveAddressKey a) s.syncAddresses with
  | none => simp [h]
  | some v => simp [lookupKey_setEntry_self, h]

theorem setStartBlock_lookup_ne (s : SyncState) (a : Address) (n : Nat) (k : String)
    (h : k ≠ deriveAddressKey a) :
    lookupKey k (setStartBlock s a n).syncAddresses = lookupKey k s.syncAddresses := by
  unfold setStartBlock
  cases h0 : lookupKey (deriveAddressKey a) s.syncAddresses with
  | none => simp
  | some v => simp [lookupKey_setEntry_ne _ _ _ h]

/-- The watermark map left by one sub-fetch: the fetched address's entry gets
`nextWatermark` as its start block; whether individual items persisted plays no
role. -/
theorem syncByType_lookup_self (env : SyncEnv) (s : SyncState) (a : Address) (kind : TxKind) :
    lookupKey (deriveAddressKey a) (syncTransactionsForAddressByType env s a kind).1.syncAddresses
      = (lookupKey (deriveAddressKey a) s.syncAddresses).map
          (fun v => { v with startBlock := nextWatermark env a kind (getStartBlock s a) }) := by
  cases hmon : lookupKey (deriveAddressKey a) s.syncAddresses with
  | none =>
    by_cases hok : env.explorerOk a.chain = true
    · cases hx : env.explorer a kind (getStartBlock s a) with
      | error e =>
        simp [syncTransactionsForAddressByType, nextWatermark, hok, hx, hmon]
      | ok items =>
        by_cases hempty : items.isEmpty
        · simp [syncTransactionsForAddressByType, nextWatermark, hok, hx, hempty, hmon]
        · simp only [syncTransactionsForAddressByType, nextWatermark, hok, hx, hempty,
            not_true_eq_false, if_false, Bool.false_eq_true, Option.map_none']
          unfold setStartBlock
          rw [foldl_processItem_syncAddresses]
          simp [hmon]
    · simp [syncTransactionsForAddressByType, nextWatermark, hok, hmon]
  | some v =>
    have hsb : getStartBlock s a = v.startBlock := by
      unfold getStartBlock
      rw [hmon]
    by_cases hok : env.explorerOk a.chain = true
    · cases hx : env.explorer a kind v.startBlock with
      | error e =>
        simp [syncTransactionsForAddressByType, nextWatermark, hok, hx, hmon, hsb]
      | ok items =>
        by_cases hempty : items.isEmpty
        · simp [syncTransactionsForAddressByType, nextWatermark, hok, hx, hempty, hmon, hsb]
        · simp only [syncTransactionsForAddressByType, nextWatermark, hok, hx, hempty, hsb,
            not_true_eq_false, if_false, Bool.false_eq_true]
          unfold setStartBlock
          rw [foldl_processItem_syncAddresses]
          simp [hmon, lookupKey_setEntry_self]
    · simp [syncTransactionsForAddressByType, nextWatermark, hok, hmon, hsb]

/-- A sub-fetch for address `a` never touches any other map key. -/
theorem syncByType_lookup_ne (env : SyncEnv) (s : SyncState) (a : Address) (kind : TxKind)
    (k : String) (hne : k ≠ deriveAddressKey a) :
    lookupKey k (syncTransactionsForAddressByType env s a kind).1.syncAddresses
      = lookupKey k s.syncAddresses := by
  by_cases hok : env.explorerOk a.chain = true
  · cases hx : env.explorer a kind (getStartBlock s a) with
    | error e => simp [syncTransactionsForAddressByType, hok, hx]
    | ok items =>
      by_cases hempty : items.isEmpty
      · simp [syncTransactionsForAddressByType, hok, hx, hempty]
      · simp only [syncTransactionsForAddressByType, hok, hx, hempty,
          not_true_eq_false, if_false, Bool.false_eq_true]
        unfold setStartBlock
        rw [foldl_processItem_syncAddresses]
        cases hmon : lookupKey (deriveAddressKey a) s.syncAddresses with
        | none => simp
        | some v => simp [lookupKey_setEntry_ne _ _ _ hne]
  · simp [syncTransactionsForAddressByType, hok]

/-- When the explorer factory succeeds, a sub-fetch logs exactly one
"Fetching transaction history" line carrying the watermark it started from. -/
theorem syncByType_fetchLog (env : SyncEnv) (s : SyncState) (a : Address) (kind : TxKind)
    (hok : env.explorerOk a.chain = true) :
    (syncTransactionsForAddressByType env s a kind).1.fetchLog
      = s.fetchLog ++ [(deriveAddressKey a, kind, getStartBlock s a)] := by
  cases hx : env.explorer a kind (getStartBlock s a) with
  | error e => simp [syncTransactionsForAddressByType, hok, hx]
  | ok items =>
    by_cases hempty : items.isEmpty
    · simp [syncTransactionsForAddressByType, hok, hx, hempty]
    · simp only [syncTransactionsForAddressByType, hok, hx, hempty,
        not_true_eq_false, if_false, Bool.false_eq_true]
      unfold setStartBlock
      cases lookupKey (deriveAddressKey a)
        (List.foldl (processItem env kind)
          { s with fetchLog := s.fetchLog ++ [(deriveAddressKey a, kind, getStartBlock s a)] }
          items).syncAddresses with
      | none => rw [foldl_processItem_fetchLog]
      | some v => rw [foldl_processItem_fetchLog]

theorem logOnError_syncAddresses (s : SyncState) (r : Except Unit Unit) (msg : String) :
    (logOnError s r msg).syncAddresses = s.syncAddresses := by
  cases r <;> rfl

theorem logOnError_repo (s : SyncState) (r : Except Unit Unit) (msg : String) :
    (logOnError s r msg).repo = s.repo := by
  cases r <;> rfl

theorem logOnError_chan (s : SyncState) (r : Except Unit Unit) (msg : String) :
    (logOnError s r msg).chan = s.chan := by
  cases r <;> rfl

theorem logOnError_fetchLog (s : SyncState) (r : Except Unit Unit) (msg : String) :
    (logOnError s r msg).fetchLog = s.fetchLog := by
  cases r <;> rfl

/-- Per-address processing advances the address's own watermark by the two
sub-fetches in sequence: first the normal one, then the ERC20 one starting
from the value the normal one left. -/
theorem syncForAddress_lookup_self (env : SyncEnv) (s : SyncState) (a : Address) :
    lookupKey (deriveAddressKey a) (syncTransactionsForAddress env s a).1.syncAddresses
      = (lookupKey (deriveAddressKey a) s.syncAddresses).map
          (fun v => { v with startBlock := (nextWatermark env a TxKind.erc20
            (nextWatermark env a TxKind.normal (getStartBlock s a))) }) := by
  unfold syncTransactionsForAddress
  simp only [logOnError_syncAddresses]
  rw [syncByType_lookup_self]
  rw [show (logOnError (syncTransactionsForAddressByType env s a TxKind.normal).1
        (syncTransactionsForAddressByType env s a TxKind.normal).2
        "Failed to sync normal transactions for address").syncAddresses
      = (syncTransactionsForAddressByType env s a TxKind.normal).1.syncAddresses from
    logOnError_syncAddresses _ _ _]
  rw [syncByType_lookup_self]
  cases hmon : lookupKey (deriveAddressKey a) s.syncAddresses with
  | none => rfl
  | some v =>
    have hg : getStartBlock
        (logOnError (syncTransactionsForAddressByType env s a TxKind.normal).1
          (syncTransactionsForAddressByType env s a TxKind.normal).2
          "Failed to sync normal transactions for address") a
        = nextWatermark env a TxKind.normal (getStartBlock s a) := by
      unfold getStartBlock
      rw [logOnError_syncAddresses, syncByType_lookup_self, hmon]
      simp [getStartBlock, hmon]
    rw [hg]
    rfl

/-- Per-address processing of `a` never touches any other map key. -/
theorem syncForAddress_lookup_ne (env : SyncEnv) (s : SyncState) (a : Address)
    (k : String) (hne : k ≠ deriveAddressKey a) :
    lookupKey k (syncTransactionsForAddress env s a).1.syncAddresses
      = lookupKey k s.syncAddresses := by
  unfold syncTransactionsForAddress
  simp only [logOnError_syncAddresses]
  rw [syncByType_lookup_ne _ _ _ _ _ hne]
  rw [logOnError_syncAddresses]
  rw [syncByType_lookup_ne _ _ _ _ _ hne]

theorem setStartBlock_repo (s : SyncState) (a : Address) (n : Nat) :
    (setStartBlock s a n).repo = s.repo := by
  unfold setStartBlock
  split
  all_goals rfl

theorem setStartBlock_chan (s : SyncState) (a : Address) (n : Nat) :
    (setStartBlock s a n).chan = s.chan := by
  unfold setStartBlock
  split
  all_goals rfl

theorem processItem_effect (env : SyncEnv) (kind : TxKind) (s : SyncState) (it : Tx) :
    ((processItem env kind s it).repo, (processItem env kind s it).chan)
      = itemEffect env kind (s.repo, s.chan) it := by
  unfold processItem itemEffect publishEvent
  repeat' split
  all_goals simp_all

theorem foldl_processItem_effect (env : SyncEnv) (kind : TxKind) :
    ∀ (items : List Tx) (s : SyncState),
      ((items.foldl (processItem env kind) s).repo, (items.foldl (processItem env kind) s).chan)
        = items.foldl (itemEffect env kind) (s.repo, s.chan) := by
  intro items
  induction items with
  | nil => intro s; rfl
  | cons it rest ih =>
    intro s
    rw [List.foldl_cons, List.foldl_cons, ih, processItem_effect]

theorem itemEffect_fst (env : SyncEnv) (kind : TxKind)
    (rc : List (String × Tx) × List TransactionEvent) (it : Tx) :
    (itemEffect env kind rc it).1 = repoStep env kind rc.1 it := by
  unfold itemEffect repoStep
  repeat' split
  all_goals simp_all

theorem foldl_itemEffect_fst (env : SyncEnv) (kind : TxKind) :
    ∀ (items : List Tx) (rc : List (String × Tx) × List TransactionEvent),
      (items.foldl (itemEffect env kind) rc).1 = items.foldl (repoStep env kind) rc.1 := by
  intro items
  induction items with
  | nil => intro rc; rfl
  | cons it rest ih =>
    intro rc
    rw [List.foldl_cons, List.foldl_cons, ih, itemEffect_fst]

/-- The persistence outcome of the per-item loop factors through the
repository alone: the channel (and any log) contents never change which rows
get written, and the loop always runs over the whole batch. -/
theorem foldl_processItem_repo (env : SyncEnv) (kind : TxKind) (items : List Tx)
    (s : SyncState) :
    (items.foldl (processItem env kind) s).repo = items.foldl (repoStep env kind) s.repo := by
  have h := foldl_processItem_effect env kind items s
  have h1 : (items.foldl (processItem env kind) s).repo
      = (items.foldl (itemEffect env kind) (s.repo, s.chan)).1 := by
    rw [← h]
  rw [h1, foldl_itemEffect_fst]

/-- The map left by one sub-fetch, as a pure function of the starting map. -/
theorem syncByType_syncAddresses (env : SyncEnv) (s : SyncState) (a : Address) (kind : TxKind) :
    (syncTransactionsForAddressByType env s a kind).1.syncAddresses
      = mapAfterSub env a kind s.syncAddresses := by
  have hw : (match lookupKey (deriveAddressKey a) s.syncAddresses with
      | some v => v.startBlock
      | none => 0) = getStartBlock s a := rfl
  unfold mapAfterSub
  rw [hw]
  by_cases hok : env.explorerOk a.chain = true
  · cases hx : env.explorer a kind (getStartBlock s a) with
    | error e => simp [syncTransactionsForAddressByType, hok, hx]
    | ok items =>
      by_cases hempty : items.isEmpty
      · simp [syncTransactionsForAddressByType, hok, hx, hempty]
      · simp only [syncTransactionsForAddressByType, hok, hx, hempty,
          not_true_eq_false, if_false, Bool.false_eq_true]
        unfold setStartBlock
        rw [foldl_processItem_syncAddresses]
        cases hmon : lookupKey (deriveAddressKey a) s.syncAddresses with
        | none => simp [hmon]
        | some v => simp [hmon]
  · simp [syncTransactionsForAddressByType, hok]

/-- The (repository, channel) pair left by one sub-fetch, as a pure function
of the starting map, repository and channel. -/
theorem syncByType_repo_chan (env : SyncEnv) (s : SyncState) (a : Address) (kind : TxKind) :
    ((syncTransactionsForAddressByType env s a kind).1.repo,
      (syncTransactionsForAddressByType env s a kind).1.chan)
      = subFetchEffect env a kind s.syncAddresses (s.repo, s.chan) := by
  have hw : (match lookupKey (deriveAddressKey a) s.syncAddresses with
      | some v => v.startBlock
      | none => 0) = getStartBlock s a := rfl
  unfold subFetchEffect
  rw [hw]
  by_cases hok : env.explorerOk a.chain = true
  · cases hx : env.explorer a kind (getStartBlock s a) with
    | error e => simp [syncTransactionsForAddressByType, hok, hx]
    | ok items =>
      by_cases hempty : items.isEmpty
      · simp [syncTransactionsForAddressByType, hok, hx, hempty]
      · simp only [syncTransactionsForAddressByType, hok, hx, hempty,
          not_true_eq_false, if_false, Bool.false_eq_true]
        rw [setStartBlock_repo, setStartBlock_chan]
        exact foldl_processItem_effect env kind items _
  · simp [syncTransactionsForAddressByType, hok]

/-- The error outcome of one sub-fetch, as a pure function of the starting
map. -/
theorem syncByType_result (env : SyncEnv) (s : SyncState) (a : Address) (kind : TxKind) :
    (syncTransactionsForAddressByType env s a kind).2
      = subFetchResult env a kind s.syncAddresses := by
  have hw : (match lookupKey (deriveAddressKey a) s.syncAddresses with
      | some v => v.startBlock
      | none => 0) = getStartBlock s a := rfl
  unfold subFetchResult
  rw [hw]
  by_cases hok : env.explorerOk a.chain = true
  · cases hx : env.explorer a kind (getStartBlock s a) with
    | error e => simp [syncTransactionsForAddressByType, hok, hx]
    | ok items =>
      by_cases hempty : items.isEmpty
      · simp [syncTransactionsForAddressByType, hok, hx, hempty]
      · simp [syncTransactionsForAddressByType, hok, hx, hempty]
  · simp [syncTransactionsForAddressByType, hok]

/-! ### Claim C1 -/

/-- C1 (amended): for a monitored address, a sub-fetch sets the watermark to
(last-returned transaction's block number + 1) whenever the fetch succeeded
and returned transactions — regardless of whether persisting individual
transactions of the batch succeeded — and leaves it unchanged exactly when the
explorer (or its factory) fails or returns no transactions.  `nextWatermark`
depends only on the explorer responses, not on the repository outcomes. -/
theorem claim_C1_amended (env : SyncEnv) (s : SyncState) (a : Address) (kind : TxKind)
    (v : AddressSyncInfo)
    (hmon : lookupKey (deriveAddressKey a) s.syncAddresses = some v) :
    getStartBlock (syncTransactionsForAddressByType env s a kind).1 a
      = nextWatermark env a kind v.startBlock := by
  have hsb : getStartBlock s a = v.startBlock := by
    unfold getStartBlock
    rw [hmon]
  unfold getStartBlock
  rw [syncByType_lookup_self, hmon, hsb]
  rfl

/-- C1 counterexample: the claim "the watermark is advanced only after the
batch has been successfully persisted; if persistence fails the watermark
stays unchanged" is false on the code.  With one returned transaction at block
10 whose `repository.Create` call fails, nothing is persisted, the sub-fetch
reports success, and the watermark still advances from 5 to 11 — so the failed
transaction is skipped on a re-run. -/
theorem claim_C1_counterexample :
    cexEnv.createFails cexTx.hash = true
    ∧ (syncTransactionsForAddressByType cexEnv cexState cexAddr TxKind.normal).1.repo = []
    ∧ (syncTransactionsForAddressByType cexEnv cexState cexAddr TxKind.normal).2 = .ok ()
    ∧ getStartBlock cexState cexAddr = 5
    ∧ getStartBlock (syncTransactionsForAddressByType cexEnv cexState cexAddr TxKind.normal).1 cexAddr
        = 11 := by
  refine ⟨rfl, ?_, rfl, ?_, ?_⟩
  · decide
  · decide
  · decide

/-- C1 amended, witness: concrete monitored address at watermark 3, explorer
returning a transaction at block 3, so the sub-fetch leaves watermark 4. -/
theorem claim_C1_amended_witness :
    getStartBlock (syncTransactionsForAddressByType wEnv wState wAddr TxKind.normal).1 wAddr
      = nextWatermark wEnv wAddr TxKind.normal 3 :=
  claim_C1_amended wEnv wState wAddr TxKind.normal ⟨wAddr, 3⟩ (by decide)

/-! ### Claim C10 -/

/-- C10: calling `MonitorAddress` for an already-monitored address returns
`nil` and leaves the whole engine state unchanged; in particular the existing
`StartBlock` cursor is preserved and the `startBlockNumber` argument of the
second call is ignored (the result does not depend on `sb`). -/
theorem claim_C10 (s : SyncState) (a : Address) (info : AddressSyncInfo) (sb : Nat)
    (hmon : lookupKey (deriveAddressKey a) s.syncAddresses = some info) :
    monitorAddress s a sb = (s, .ok ()) := by
  unfold monitorAddress
  rw [hmon]

/-- C10 witness: re-registering the monitored witness address with a different
start block changes nothing. -/
theorem claim_C10_witness :
    monitorAddress wState wAddr 999 = (wState, .ok ()) :=
  claim_C10 wState wAddr ⟨wAddr, 3⟩ 999 (by decide)

/-! ### Claim C6 -/

/-- C6: publishing a `TransactionEvent` never blocks the sync loop: if the
bounded channel (capacity 100) has free space the event is enqueued, if it is
full the event is dropped and a warning is logged; and the channel contents
never influence the persistence outcome of the loop, which always runs over
the whole batch (`repoStep` folds over every item and mentions no channel). -/
theorem claim_C6 :
    (∀ (s : SyncState) (e : TransactionEvent), s.chan.length < 100 →
        publishEvent s e = { s with chan := s.chan ++ [e] })
    ∧ (∀ (s : SyncState) (e : TransactionEvent), ¬ s.chan.length < 100 →
        publishEvent s e
          = { s with warnLog := s.warnLog ++ ["History events channel is full, dropping event"] })
    ∧ (∀ (env : SyncEnv) (kind : TxKind) (items : List Tx) (s : SyncState),
        (items.foldl (processItem env kind) s).repo
          = items.foldl (repoStep env kind) s.repo) := by
  refine ⟨?_, ?_, ?_⟩
  · intro s e h
    unfold publishEvent
    rw [if_pos h]
  · intro s e h
    unfold publishEvent
    rw [if_neg h]
  · intro env kind items s
    exact foldl_processItem_repo env kind items s

/-- C6 witness: with an empty channel the event is enqueued; with a saturated
channel (100 queued events) it is dropped with a warning; and on the saturated
state the loop still persists the batch exactly as `repoStep` prescribes. -/
theorem claim_C6_witness :
    (publishEvent wState wEvent = { wState with chan := wState.chan ++ [wEvent] })
    ∧ (publishEvent fullChanState wEvent
        = { fullChanState with
            warnLog := fullChanState.warnLog ++ ["History events channel is full, dropping event"] })
    ∧ (([wTx].foldl (processItem wEnv TxKind.normal) fullChanState).repo
        = [wTx].foldl (repoStep wEnv TxKind.normal) fullChanState.repo) :=
  ⟨claim_C6.1 wState wEvent (by decide),
   claim_C6.2.1 fullChanState wEvent (by decide),
   claim_C6.2.2 wEnv TxKind.normal [wTx] fullChanState⟩

/-! ### Claim C7 -/

/-- C7: one pass over a monitored address uses a single shared watermark for
both transaction types: the normal sub-fetch runs first and is issued at the
stored watermark `v.startBlock`, the ERC20 sub-fetch is issued at the value
the normal sub-fetch left (`nextWatermark … normal`), not at the cycle-start
value, and the ERC20 advancement then overwrites the shared value again. -/
theorem claim_C7 (env : SyncEnv) (s : SyncState) (a : Address) (v : AddressSyncInfo)
    (hmon : lookupKey (deriveAddressKey a) s.syncAddresses = some v)
    (hok : env.explorerOk a.chain = true) :
    (syncTransactionsForAddress env s a).1.fetchLog
      = s.fetchLog ++ [(deriveAddressKey a, TxKind.normal, v.startBlock),
          (deriveAddressKey a, TxKind.erc20, nextWatermark env a TxKind.normal v.startBlock)]
    ∧ getStartBlock (syncTransactionsForAddress env s a).1 a
      = nextWatermark env a TxKind.erc20 (nextWatermark env a TxKind.normal v.startBlock) := by
  have hsb : getStartBlock s a = v.startBlock := by
    unfold getStartBlock
    rw [hmon]
  have hmid : getStartBlock
      (logOnError (syncTransactionsForAddressByType env s a TxKind.normal).1
        (syncTransactionsForAddressByType env s a TxKind.normal).2
        "Failed to sync normal transactions for address") a
      = nextWatermark env a TxKind.normal v.startBlock := by
    unfold getStartBlock
    rw [logOnError_syncAddresses, syncByType_lookup_self, hmon, hsb]
    rfl
  constructor
  · simp only [syncTransactionsForAddress]
    rw [logOnError_fetchLog, syncByType_fetchLog _ _ _ _ hok, logOnError_fetchLog,
      syncByType_fetchLog _ _ _ _ hok, hmid, hsb, List.append_assoc]
    rfl
  · unfold getStartBlock
    rw [syncForAddress_lookup_self, hsb, hmon]
    rfl

/-- C7 witness: concrete run at watermark 3 with the witness explorer. -/
theorem claim_C7_witness :
    (syncTransactionsForAddress wEnv wState wAddr).1.fetchLog
      = wState.fetchLog ++ [(deriveAddressKey wAddr, TxKind.normal, 3),
          (deriveAddressKey wAddr, TxKind.erc20, nextWatermark wEnv wAddr TxKind.normal 3)]
    ∧ getStartBlock (syncTransactionsForAddress wEnv wState wAddr).1 wAddr
      = nextWatermark wEnv wAddr TxKind.erc20 (nextWatermark wEnv wAddr TxKind.normal 3) :=
  claim_C7 wEnv wState wAddr ⟨wAddr, 3⟩ (by decide) rfl

/-! ### Watermark monotonicity (claim C2) -/

/-- If the explorer honours the queried start block (every returned
transaction is at a block ≥ it), one sub-fetch can only move the watermark
forward. -/
theorem nextWatermark_ge (env : SyncEnv) (a : Address) (kind : TxKind) (w : Nat)
    (hresp : ∀ items, env.explorer a kind w = .ok items → ∀ t ∈ items, w ≤ t.blockNumber) :
    w ≤ nextWatermark env a kind w := by
  unfold nextWatermark
  by_cases hok : env.explorerOk a.chain = true
  · simp only [hok, not_true_eq_false, if_false, Bool.false_eq_true]
    cases hx : env.explorer a kind w with
    | error e => exact Nat.le_refl w
    | ok items =>
      show w ≤ if items.isEmpty = true then w
        else (Option.map Tx.blockNumber items.getLast?).getD 0 + 1
      by_cases hempty : items.isEmpty
      · simp [hempty]
      · have hne : items ≠ [] := by
          intro hnil
          rw [hnil] at hempty
          exact hempty rfl
        have hmem : items.getLast hne ∈ items := List.getLast_mem hne
        have hle : w ≤ (items.getLast hne).blockNumber := hresp items hx _ hmem
        rw [List.getLast?_eq_getLast items hne]
        simp only [hempty, if_false, Option.map_some', Option.getD_some, Bool.false_eq_true]
        omega
  · simp [hok]

/-- Strict version: if that sub-fetch returned at least one transaction, the
watermark strictly increases. -/
theorem nextWatermark_gt (env : SyncEnv) (a : Address) (kind : TxKind) (w : Nat)
    (hok : env.explorerOk a.chain = true)
    (hne : returnedNonempty env a kind w)
    (hresp : ∀ items, env.explorer a kind w = .ok items → ∀ t ∈ items, w ≤ t.blockNumber) :
    w < nextWatermark env a kind w := by
  obtain ⟨items, hx, hnil⟩ := hne
  unfold nextWatermark
  simp only [hok, not_true_eq_false, if_false, hx, Bool.false_eq_true]
  have hempty : items.isEmpty = false := by
    cases items with
    | nil => exact absurd rfl hnil
    | cons x xs => rfl
  have hmem : items.getLast hnil ∈ items := List.getLast_mem hnil
  have hle : w ≤ (items.getLast hnil).blockNumber := hresp items hx _ hmem
  rw [List.getLast?_eq_getLast items hnil]
  simp only [hempty, if_false, Option.map_some', Option.getD_some, Bool.false_eq_true]
  omega

/-- Because `syncTransactionsForAddress` always returns `nil`, the per-address
logging wrapper of the cycle never fires. -/
theorem cycleStep_eq (env : SyncEnv) (st : SyncState) (a : Address) :
    logOnError (syncTransactionsForAddress env st a).1 (syncTransactionsForAddress env st a).2
        "Failed to sync history for address"
      = (syncTransactionsForAddress env st a).1 := rfl

/-- A successful map lookup splits the list at its first hit. -/
theorem lookupKey_split (k : String) :
    ∀ (l : List (String × AddressSyncInfo)) (v : AddressSyncInfo),
      lookupKey k l = some v →
        ∃ l1 l2, l = l1 ++ (k, v) :: l2 ∧ ∀ kv ∈ l1, kv.1 ≠ k := by
  intro l
  induction l with
  | nil => intro v h; cases h
  | cons kv rest ih =>
    intro v h
    obtain ⟨k0, v0⟩ := kv
    by_cases h0 : k0 = k
    · subst h0
      have hv : v0 = v := by
        simpa [lookupKey] using h
      subst hv
      exact ⟨[], rest, rfl, by intro kv hkv; cases hkv⟩
    · have h' : lookupKey k rest = some v := by
        simpa [lookupKey, h0] using h
      obtain ⟨l1, l2, he, hne⟩ := ih v h'
      refine ⟨(k0, v0) :: l1, l2, by rw [he]; rfl, ?_⟩
      intro kv hkv
      cases hkv with
      | head => exact h0
      | tail _ htail => exact hne kv htail

/-- Folding the cycle over addresses whose keys differ from `k` preserves the
entry at `k`. -/
theorem cycle_foldl_lookup_ne (env : SyncEnv) (k : String) :
    ∀ (L : List Address) (st : SyncState),
      (∀ b ∈ L, k ≠ deriveAddressKey b) →
      lookupKey k (L.foldl
          (fun st a =>
            let r := syncTransactionsForAddress env st a
            logOnError r.1 r.2 "Failed to sync history for address") st).syncAddresses
        = lookupKey k st.syncAddresses := by
  intro L
  induction L with
  | nil => intro st h; rfl
  | cons b rest ih =>
    intro st h
    rw [List.foldl_cons, ih _ (fun x hx => h x (List.mem_cons_of_mem _ hx))]
    rw [cycleStep_eq, syncForAddress_lookup_ne _ _ _ _ (h b (List.mem_cons_self _ _))]

/-- What one full cycle does to a monitored address's stored watermark: the
normal sub-fetch advancement followed by the ERC20 one. -/
theorem cycle_getStartBlock (env : SyncEnv) (s : SyncState) (a : Address) (w0 : Nat)
    (hwf : WFState s)
    (hmon : lookupKey (deriveAddressKey a) s.syncAddresses = some ⟨a, w0⟩) :
    getStartBlock (syncTransactions env s) a
      = nextWatermark env a TxKind.erc20 (nextWatermark env a TxKind.normal w0) := by
  obtain ⟨l1, l2, hsplit, hl1⟩ := lookupKey_split (deriveAddressKey a) s.syncAddresses ⟨a, w0⟩ hmon
  have hnodup := hwf.1
  rw [hsplit] at hnodup
  rw [List.map_append, List.map_cons] at hnodup
  have hl2keys : (deriveAddressKey a) ∉ l2.map Prod.fst := by
    have h2 := (List.nodup_append.mp hnodup).2.1
    exact (List.nodup_cons.mp h2).1
  have hkeys : ∀ kv ∈ s.syncAddresses, kv.1 = deriveAddressKey kv.2.address := hwf.2
  unfold syncTransactions
  rw [hsplit, List.map_append, List.map_cons, List.foldl_append, List.foldl_cons]
  have hpre : ∀ b ∈ l1.map (fun kv => kv.2.address), deriveAddressKey a ≠ deriveAddressKey b := by
    intro b hb
    rw [List.mem_map] at hb
    obtain ⟨kv, hkv, hb⟩ := hb
    have h1 : kv.1 = deriveAddressKey kv.2.address :=
      hkeys kv (by rw [hsplit]; exact List.mem_append_left _ hkv)
    rw [hb] at h1
    intro he
    exact hl1 kv hkv (by rw [h1, ← he])
  have hpost : ∀ b ∈ l2.map (fun kv => kv.2.address), deriveAddressKey a ≠ deriveAddressKey b := by
    intro b hb
    rw [List.mem_map] at hb
    obtain ⟨kv, hkv, hb⟩ := hb
    have h1 : kv.1 = deriveAddressKey kv.2.address :=
      hkeys kv (by
        rw [hsplit]
        exact List.mem_append_right _ (List.mem_cons_of_mem _ hkv))
    rw [hb] at h1
    intro he
    apply hl2keys
    rw [he, ← h1]
    exact List.mem_map_of_mem Prod.fst hkv
  -- the prefix of the snapshot leaves a's entry alone
  have hmid : lookupKey (deriveAddressKey a)
      ((l1.map (fun kv => kv.2.address)).foldl
        (fun st a =>
          let r := syncTransactionsForAddress env st a
          logOnError r.1 r.2 "Failed to sync history for address") s).syncAddresses
      = some ⟨a, w0⟩ := by
    rw [cycle_foldl_lookup_ne env _ _ _ hpre, hmon]
  -- a's own turn applies the two sub-fetch advancements
  set st1 := (l1.map (fun kv => kv.2.address)).foldl
      (fun st a =>
        let r := syncTransactionsForAddress env st a
        logOnError r.1 r.2 "Failed to sync history for address") s with hst1
  have hsb1 : getStartBlock st1 a = w0 := by
    unfold getStartBlock
    rw [hmid]
  have hown : lookupKey (deriveAddressKey a)
      (logOnError (syncTransactionsForAddress env st1 a).1
        (syncTransactionsForAddress env st1 a).2
        "Failed to sync history for address").syncAddresses
      = some ⟨a, nextWatermark env a TxKind.erc20 (nextWatermark env a TxKind.normal w0)⟩ := by
    rw [cycleStep_eq, syncForAddress_lookup_self, hmid, hsb1]
    rfl
  unfold getStartBlock
  rw [cycle_foldl_lookup_ne env _ _ _ hpost, hown]

/-! ### Claim C2 -/

/-- C2: for a monitored address, provided the explorer honours the queried
start block (each returned transaction's block number is ≥ it, which is its
`startBlock` request-parameter contract), the stored `StartBlock` watermark is
monotonically non-decreasing over a sync cycle, and strictly increases if the
explorer returned any transaction for that address during the cycle. -/
theorem claim_C2 (env : SyncEnv) (s : SyncState) (a : Address) (w0 : Nat)
    (hwf : WFState s)
    (hmon : lookupKey (deriveAddressKey a) s.syncAddresses = some ⟨a, w0⟩)
    (hresp : ∀ (kind : TxKind) (sb : Nat) (items : List Tx),
      env.explorer a kind sb = .ok items → ∀ t ∈ items, sb ≤ t.blockNumber) :
    w0 ≤ getStartBlock (syncTransactions env s) a
    ∧ (anyTxReturned env a w0 → w0 < getStartBlock (syncTransactions env s) a) := by
  have hcycle := cycle_getStartBlock env s a w0 hwf hmon
  have h1 : w0 ≤ nextWatermark env a TxKind.normal w0 :=
    nextWatermark_ge env a TxKind.normal w0 (fun items hx => hresp _ _ items hx)
  have h2 : nextWatermark env a TxKind.normal w0
      ≤ nextWatermark env a TxKind.erc20 (nextWatermark env a TxKind.normal w0) :=
    nextWatermark_ge env a TxKind.erc20 _ (fun items hx => hresp _ _ items hx)
  constructor
  · rw [hcycle]
    omega
  · intro hany
    obtain ⟨hok, hcase⟩ := hany
    rw [hcycle]
    cases hcase with
    | inl hn =>
      have h3 := nextWatermark_gt env a TxKind.normal w0 hok hn
        (fun items hx => hresp _ _ items hx)
      omega
    | inr he =>
      have h3 := nextWatermark_gt env a TxKind.erc20 _ hok he
        (fun items hx => hresp _ _ items hx)
      omega

/-- C2 witness: the witness explorer answers every query with one transaction
at exactly the queried start block, so one cycle strictly advances the
watermark of the monitored address beyond its initial value 3. -/
theorem claim_C2_witness :
    3 < getStartBlock (syncTransactions wEnv wState) wAddr := by
  have hresp : ∀ (kind : TxKind) (sb : Nat) (items : List Tx),
      wEnv.explorer wAddr kind sb = .ok items → ∀ t ∈ items, sb ≤ t.blockNumber := by
    intro kind sb items hx t ht
    have hx' : Except.ok (ε := Unit) [(⟨"wh", sb, none⟩ : Tx)] = Except.ok items := hx
    have hitems : [(⟨"wh", sb, none⟩ : Tx)] = items := by
      injection hx'
    rw [← hitems] at ht
    have ht' : t = (⟨"wh", sb, none⟩ : Tx) := by
      simpa using ht
    rw [ht']
  have hany : anyTxReturned wEnv wAddr 3 := by
    refine ⟨rfl, Or.inl ⟨[⟨"wh", 3, none⟩], rfl, ?_⟩⟩
    intro h
    cases h
  have hwf : WFState wState := by
    refine ⟨?_, ?_⟩
    · decide
    · decide
  exact (claim_C2 wEnv wState wAddr 3 hwf (by decide) hresp).2 hany

/-! ### Partial failure isolation (claim C5) -/

/-- Composite map equation for one per-address pass. -/
theorem syncForAddress_syncAddresses (env : SyncEnv) (s : SyncState) (a : Address) :
    (syncTransactionsForAddress env s a).1.syncAddresses
      = mapAfterSub env a TxKind.erc20 (mapAfterSub env a TxKind.normal s.syncAddresses) := by
  unfold syncTransactionsForAddress
  rw [logOnError_syncAddresses, syncByType_syncAddresses, logOnError_syncAddresses,
    syncByType_syncAddresses]

/-- Composite (repository, channel) equation for one per-address pass: the
outcome is a pure function of the map, repository and channel it started from
(logs play no role). -/
theorem syncForAddress_repo_chan (env : SyncEnv) (s : SyncState) (a : Address) :
    ((syncTransactionsForAddress env s a).1.repo, (syncTransactionsForAddress env s a).1.chan)
      = subFetchEffect env a TxKind.erc20 (mapAfterSub env a TxKind.normal s.syncAddresses)
          (subFetchEffect env a TxKind.normal s.syncAddresses (s.repo, s.chan)) := by
  unfold syncTransactionsForAddress
  rw [logOnError_repo, logOnError_chan, syncByType_repo_chan, logOnError_syncAddresses,
    syncByType_syncAddresses, logOnError_repo, logOnError_chan, syncByType_repo_chan]

/-- An address whose explorer calls all fail (with a working factory) leaves a
pass that only logs: the map, repository and channel are untouched, the fetch
attempts and errors are recorded, and no error escapes. -/
theorem syncForAddress_fail_state (env : SyncEnv) (s : SyncState) (a : Address)
    (hok : env.explorerOk a.chain = true)
    (hfail : ∀ (kind : TxKind) (sb : Nat), env.explorer a kind sb = .error ()) :
    syncTransactionsForAddress env s a
      = ({ s with
          fetchLog := s.fetchLog ++ [(deriveAddressKey a, TxKind.normal, getStartBlock s a),
            (deriveAddressKey a, TxKind.erc20, getStartBlock s a)],
          errorLog := s.errorLog ++ ["Failed to get transaction history",
            "Failed to sync normal transactions for address",
            "Failed to get transaction history",
            "Failed to sync ERC20 transactions for address"] }, .ok ()) := by
  have h1 : syncTransactionsForAddressByType env s a TxKind.normal
      = ({ s with
          fetchLog := s.fetchLog ++ [(deriveAddressKey a, TxKind.normal, getStartBlock s a)],
          errorLog := s.errorLog ++ ["Failed to get transaction history"] }, .error ()) := by
    simp [syncTransactionsForAddressByType, hok, hfail]
  have h2 : ∀ (s' : SyncState), s'.syncAddresses = s.syncAddresses →
      syncTransactionsForAddressByType env s' a TxKind.erc20
        = ({ s' with
            fetchLog := s'.fetchLog ++ [(deriveAddressKey a, TxKind.erc20, getStartBlock s a)],
            errorLog := s'.errorLog ++ ["Failed to get transaction history"] }, .error ()) := by
    intro s' hsa
    have hg : getStartBlock s' a = getStartBlock s a := by
      unfold getStartBlock
      rw [hsa]
    simp [syncTransactionsForAddressByType, hok, hfail, hg]
  simp only [syncTransactionsForAddress, h1, logOnError]
  rw [h2 ({ s with
      fetchLog := s.fetchLog ++ [(deriveAddressKey a, TxKind.normal, getStartBlock s a)],
      errorLog := s.errorLog ++ ["Failed to get transaction history"]
        ++ ["Failed to sync normal transactions for address"] }) rfl]
  simp [List.append_assoc]

/-- A failing sub-fetch still reports an error to `syncTransactionsForAddress`
(where it is logged and swallowed). -/
theorem subFetchResult_fail (env : SyncEnv) (a : Address) (kind : TxKind)
    (m : List (String × AddressSyncInfo))
    (hfail : ∀ sb : Nat, env.explorer a kind sb = .error ()) :
    subFetchResult env a kind m = .error () := by
  simp only [subFetchResult]
  rw [hfail]
  by_cases hok : env.explorerOk a.chain = true
  · simp [hok]
  · simp [hok]

/-! ### Claim C5 -/

/-- C5: partial failure isolation.  With two monitored addresses where every
explorer call for `A` errors (its factory working) and `B` is arbitrary, one
cycle leaves `A`'s watermark unchanged, processes `B` exactly as if it were
processed alone (same repository rows, same emitted events, same watermark),
logs the failures, and raises no error to the caller: the per-address routine
swallows the sub-fetch errors, and the cycle itself returns nothing. -/
theorem claim_C5 (env : SyncEnv) (s : SyncState) (A B : Address) (wa wb : Nat)
    (hmap : s.syncAddresses
      = [(deriveAddressKey A, ⟨A, wa⟩), (deriveAddressKey B, ⟨B, wb⟩)])
    (hne : deriveAddressKey A ≠ deriveAddressKey B)
    (hok : env.explorerOk A.chain = true)
    (hfailA : ∀ (kind : TxKind) (sb : Nat), env.explorer A kind sb = .error ()) :
    getStartBlock (syncTransactions env s) A = wa
    ∧ (syncTransactions env s).repo = (syncTransactionsForAddress env s B).1.repo
    ∧ (syncTransactions env s).chan = (syncTransactionsForAddress env s B).1.chan
    ∧ getStartBlock (syncTransactions env s) B
        = getStartBlock (syncTransactionsForAddress env s B).1 B
    ∧ (syncTransactionsForAddress env s A).2 = .ok ()
    ∧ (syncTransactionsForAddressByType env s A TxKind.normal).2 = .error ()
    ∧ (syncTransactionsForAddress env s A).1.errorLog
        = s.errorLog ++ ["Failed to get transaction history",
            "Failed to sync normal transactions for address",
            "Failed to get transaction history",
            "Failed to sync ERC20 transactions for address"] := by
  have hfailState := syncForAddress_fail_state env s A hok hfailA
  have hsnap : s.syncAddresses.map (fun kv => kv.2.address) = [A, B] := by
    rw [hmap]
    rfl
  have hcycle : syncTransactions env s
      = (syncTransactionsForAddress env
          (syncTransactionsForAddress env s A).1 B).1 := by
    unfold syncTransactions
    rw [hsnap]
    simp only [List.foldl_cons, List.foldl_nil]
    rw [cycleStep_eq, cycleStep_eq]
  set sMod := (syncTransactionsForAddress env s A).1 with hsMod
  have hModAddr : sMod.syncAddresses = s.syncAddresses := by
    rw [hsMod, hfailState]
  have hModRepo : sMod.repo = s.repo := by
    rw [hsMod, hfailState]
  have hModChan : sMod.chan = s.chan := by
    rw [hsMod, hfailState]
  have hlkA : lookupKey (deriveAddressKey A) s.syncAddresses = some ⟨A, wa⟩ := by
    rw [hmap]
    simp [lookupKey]
  refine ⟨?_, ?_, ?_, ?_, rfl, ?_, ?_⟩
  · -- A's watermark is unchanged
    rw [hcycle]
    unfold getStartBlock
    rw [syncForAddress_lookup_ne _ _ _ _ hne, hModAddr, hlkA]
  · -- B's repository rows as if processed alone
    have hpair := syncForAddress_repo_chan env sMod B
    rw [hModAddr, hModRepo, hModChan, ← syncForAddress_repo_chan env s B] at hpair
    rw [hcycle]
    exact congrArg Prod.fst hpair
  · -- B's emitted events as if processed alone
    have hpair := syncForAddress_repo_chan env sMod B
    rw [hModAddr, hModRepo, hModChan, ← syncForAddress_repo_chan env s B] at hpair
    rw [hcycle]
    exact congrArg Prod.snd hpair
  · -- B's watermark as if processed alone
    rw [hcycle]
    unfold getStartBlock
    rw [syncForAddress_lookup_self, syncForAddress_lookup_self, hModAddr]
    have hg : getStartBlock sMod B = getStartBlock s B := by
      unfold getStartBlock
      rw [hModAddr]
    rw [hg]
  · -- the normal sub-fetch for A did error (and was logged, not raised)
    rw [syncByType_result]
    exact subFetchResult_fail env A TxKind.normal s.syncAddresses (hfailA TxKind.normal)
  · -- the failures were logged
    rw [hsMod, hfailState]

/-- C5 witness: concrete two-address run; wAddrA's calls fail, wAddr's
succeed, and all six isolation conclusions hold at the concrete input. -/
theorem claim_C5_witness :
    getStartBlock (syncTransactions wEnvC5 wStateC5) wAddrA = 7
    ∧ (syncTransactions wEnvC5 wStateC5).repo
        = (syncTransactionsForAddress wEnvC5 wStateC5 wAddr).1.repo
    ∧ (syncTransactions wEnvC5 wStateC5).chan
        = (syncTransactionsForAddress wEnvC5 wStateC5 wAddr).1.chan
    ∧ getStartBlock (syncTransactions wEnvC5 wStateC5) wAddr
        = getStartBlock (syncTransactionsForAddress wEnvC5 wStateC5 wAddr).1 wAddr
    ∧ (syncTransactionsForAddress wEnvC5 wStateC5 wAddrA).2 = .ok ()
    ∧ (syncTransactionsForAddressByType wEnvC5 wStateC5 wAddrA TxKind.normal).2 = .error ()
    ∧ (syncTransactionsForAddress wEnvC5 wStateC5 wAddrA).1.errorLog
        = wStateC5.errorLog ++ ["Failed to get transaction history",
            "Failed to sync normal transactions for address",
            "Failed to get transaction history",
            "Failed to sync ERC20 transactions for address"] :=
  claim_C5 wEnvC5 wStateC5 wAddrA wAddr 7 3 rfl (by decide) rfl
    (fun kind sb => by simp [wEnvC5, wEnv])

/-! ### Keystore lemmas -/

theorem mem_insertSorted (x r : KeyRow) :
    ∀ l : List KeyRow, x ∈ insertSorted r l → x = r ∨ x ∈ l := by
  intro l
  induction l with
  | nil =>
    intro h
    simp [insertSorted] at h
    exact Or.inl h
  | cons y ys ih =>
    intro h
    simp only [insertSorted] at h
    split at h
    · rw [List.mem_cons] at h
      rcases h with h | h
      · exact Or.inl h
      · exact Or.inr h
    · rw [List.mem_cons] at h
      rcases h with h | h
      · exact Or.inr (by rw [h]; exact List.mem_cons_self _ _)
      · rcases ih h with h' | h'
        · exact Or.inl h'
        · exact Or.inr (List.mem_cons_of_mem _ h')

theorem mem_sortById (x : KeyRow) :
    ∀ l : List KeyRow, x ∈ sortById l → x ∈ l := by
  intro l
  induction l with
  | nil => intro h; exact absurd h (by simp [sortById])
  | cons y ys ih =>
    intro h
    have h' : x ∈ insertSorted y (sortById ys) := h
    rcases mem_insertSorted x y _ h' with h1 | h1
    · rw [h1]; exact List.mem_cons_self _ _
    · exact List.mem_cons_of_mem _ (ih h1)

theorem findRow_none (id : Nat) :
    ∀ l : List KeyRow, findRow id l = none → ∀ r ∈ l, r.id ≠ id := by
  intro l
  induction l with
  | nil => intro _ r hr; cases hr
  | cons y ys ih =>
    intro h r hr
    simp only [findRow] at h
    by_cases hy : y.id = id
    · rw [if_pos hy] at h
      cases h
    · rw [if_neg hy] at h
      rw [List.mem_cons] at hr
      rcases hr with rfl | hr
      · exact hy
      · exact ih h r hr

theorem map_update_id (id : Nat) (n : String) (tg : List (String × String)) :
    ∀ l : List KeyRow, (∀ r ∈ l, r.id ≠ id) →
      l.map (fun r => if r.id = id then { r with name := n, tags := tg } else r) = l := by
  intro l
  induction l with
  | nil => intro _; rfl
  | cons y ys ih =>
    intro h
    rw [List.map_cons, if_neg (h y (List.mem_cons_self _ _)),
      ih (fun r hr => h r (List.mem_cons_of_mem _ hr))]

theorem filter_ne_id (id : Nat) :
    ∀ l : List KeyRow, (∀ r ∈ l, r.id ≠ id) →
      l.filter (fun r => ¬ r.id = id) = l := by
  intro l
  induction l with
  | nil => intro _; rfl
  | cons y ys ih =>
    intro h
    rw [List.filter_cons]
    rw [if_pos (by simpa using h y (List.mem_cons_self _ _))]
    rw [ih (fun r hr => h r (List.mem_cons_of_mem _ hr))]

/-! ### Claim C3 -/

/-- C3: private key material is never persisted or returned unencrypted.
Create and Import persist and return exactly the encryptor's output for the
private part (the plaintext exists only in flight between generator/caller and
encryptor); GetPublicKey and List return rows with empty private material (the
SELECT omits the column); Update rewrites only name/tags and leaves every
row's key material intact; and only Sign decrypts — in memory, producing a
signature of the decrypted key without mutating or returning anything else. -/
theorem claim_C3 :
    (∀ (env : KsEnv) (db : KsDB) (n : String) (kt : KeyType) (c : Option String)
        (tg : List (String × String)) (k : KeyRow) (db' : KsDB),
        ksCreate env db n kt c tg = (.ok k, db') →
        ∃ priv pub, env.generateKeyPair kt ((resolveCurve kt c).getD "") = .ok (priv, pub)
          ∧ env.encrypt priv = .ok k.privateKey
          ∧ k.publicKey = pub
          ∧ db'.rows = db.rows ++ [k])
    ∧ (∀ (env : KsEnv) (db : KsDB) (n : String) (kt : KeyType) (c : Option String)
        (priv pub : List Nat) (tg : List (String × String)) (k : KeyRow) (db' : KsDB),
        ksImport env db n kt c priv pub tg = (.ok k, db') →
        env.encrypt priv = .ok k.privateKey ∧ k.publicKey = pub ∧ db'.rows = db.rows ++ [k])
    ∧ (∀ (db : KsDB) (id : Nat) (k : KeyRow),
        ksGetPublicKey db id = .ok k → k.privateKey = [])
    ∧ (∀ (db : KsDB) (lim : Int) (tk : Option Nat),
        ∀ k ∈ (ksList db lim tk).1, k.privateKey = [])
    ∧ (∀ (env : KsEnv) (db : KsDB) (id : Nat) (data : List Nat) (dt : DataType)
        (sig : List Nat), ksSign env db id data dt = .ok sig →
        ∃ row priv, findRow id db.rows = some row
          ∧ env.decrypt row.privateKey = .ok priv
          ∧ signData env row.keyType priv data dt row.curve = .ok sig)
    ∧ (∀ (db : KsDB) (id : Nat) (n : String) (tg : List (String × String)),
        ∀ r ∈ (ksUpdate db id n tg).2.rows,
        ∃ r0 ∈ db.rows, r.privateKey = r0.privateKey ∧ r.publicKey = r0.publicKey) := by
  refine ⟨?_, ?_, ?_, ?_, ?_, ?_⟩
  · -- Create
    intro env db n kt c tg k db' h
    rcases hg : env.generateKeyPair kt ((resolveCurve kt c).getD "") with e | pp
    · simp [ksCreate, hg] at h
    · obtain ⟨priv, pub⟩ := pp
      rcases he : env.encrypt priv with e2 | enc
      · simp [ksCreate, hg, he] at h
      · simp only [ksCreate, hg, he, Prod.mk.injEq, Except.ok.injEq] at h
        obtain ⟨h1, h2⟩ := h
        subst h1
        subst h2
        exact ⟨priv, pub, rfl, he, rfl, rfl⟩
  · -- Import
    intro env db n kt c priv pub tg k db' h
    rcases he : env.encrypt priv with e | enc
    · simp [ksImport, he] at h
    · simp only [ksImport, he, Prod.mk.injEq, Except.ok.injEq] at h
      obtain ⟨h1, h2⟩ := h
      subst h1
      subst h2
      exact ⟨rfl, rfl, rfl⟩
  · -- GetPublicKey
    intro db id k h
    simp only [ksGetPublicKey] at h
    split at h
    · cases h
    · injection h with h1
      rw [← h1]
  · -- List
    intro db lim tk k hk
    have hvis : ∀ (l : List KeyRow) (x : KeyRow),
        x ∈ l.map (fun r => { r with privateKey := ([] : List Nat) }) →
          x.privateKey = [] := by
      intro l x hx
      rw [List.mem_map] at hx
      obtain ⟨r, _, rfl⟩ := hx
      rfl
    simp only [ksList] at hk
    split at hk
    all_goals split at hk
    all_goals first
      | exact hvis _ _ (mem_sortById _ _ (List.take_subset _ _ (List.take_subset _ _ hk)))
      | exact hvis _ _ (mem_sortById _ _ (List.take_subset _ _ hk))
  · -- Sign
    intro env db id data dt sig h
    simp only [ksSign] at h
    split at h
    · cases h
    · next row heq =>
      split at h
      · cases h
      · next priv heq2 =>
        exact ⟨row, priv, heq, heq2, h⟩
  · -- Update frame on key material
    intro db id n tg r hr
    have hdb : (ksUpdate db id n tg).2.rows
        = db.rows.map (fun r => if r.id = id then { r with name := n, tags := tg } else r) := by
      simp only [ksUpdate]
      split
      · rfl
      · split
        · rfl
        · rfl
    rw [hdb, List.mem_map] at hr
    obtain ⟨r0, hr0, rfl⟩ := hr
    refine ⟨r0, hr0, ?_, ?_⟩
    · by_cases h : r0.id = id
      · simp [h]
      · simp [h]
    · by_cases h : r0.id = id
      · simp [h]
      · simp [h]

/-- C3 witness: concrete run of every keystore operation against the witness
environment and database, with the corresponding conclusion of `claim_C3`. -/
theorem claim_C3_witness :
    (∃ priv pub,
        kEnv.generateKeyPair KeyType.ecdsa ((resolveCurve KeyType.ecdsa none).getD "")
          = .ok (priv, pub)
        ∧ kEnv.encrypt priv
            = .ok (⟨2, "n2", KeyType.ecdsa, "P-256", [], 1000, [0, 1, 2], [3, 4]⟩ : KeyRow).privateKey
        ∧ (⟨2, "n2", KeyType.ecdsa, "P-256", [], 1000, [0, 1, 2], [3, 4]⟩ : KeyRow).publicKey = pub
        ∧ (⟨[kRow, ⟨2, "n2", KeyType.ecdsa, "P-256", [], 1000, [0, 1, 2], [3, 4]⟩], 3, []⟩ : KsDB).rows
            = kDB.rows ++ [⟨2, "n2", KeyType.ecdsa, "P-256", [], 1000, [0, 1, 2], [3, 4]⟩])
    ∧ (kEnv.encrypt [9]
          = .ok (⟨2, "imp", KeyType.rsa, "", [], 1000, [0, 9], [5]⟩ : KeyRow).privateKey
        ∧ (⟨2, "imp", KeyType.rsa, "", [], 1000, [0, 9], [5]⟩ : KeyRow).publicKey = [5]
        ∧ (⟨[kRow, ⟨2, "imp", KeyType.rsa, "", [], 1000, [0, 9], [5]⟩], 3, []⟩ : KsDB).rows
            = kDB.rows ++ [⟨2, "imp", KeyType.rsa, "", [], 1000, [0, 9], [5]⟩])
    ∧ (⟨1, "k1", KeyType.ecdsa, "P-256", [], 500, [], [3, 4]⟩ : KeyRow).privateKey = []
    ∧ (⟨1, "k1", KeyType.ecdsa, "P-256", [], 500, [], [3, 4]⟩ : KeyRow).privateKey = []
    ∧ (∃ row priv, findRow 1 kDB.rows = some row
        ∧ kEnv.decrypt row.privateKey = .ok priv
        ∧ signData kEnv row.keyType priv [42] DataType.raw row.curve = .ok [7, 9, 42])
    ∧ (∃ r0 ∈ kDB.rows,
        (⟨1, "z", KeyType.ecdsa, "P-256", [], 500, [0, 1, 2], [3, 4]⟩ : KeyRow).privateKey
          = r0.privateKey
        ∧ (⟨1, "z", KeyType.ecdsa, "P-256", [], 500, [0, 1, 2], [3, 4]⟩ : KeyRow).publicKey
          = r0.publicKey) :=
  ⟨claim_C3.1 kEnv kDB "n2" KeyType.ecdsa none []
      ⟨2, "n2", KeyType.ecdsa, "P-256", [], 1000, [0, 1, 2], [3, 4]⟩
      ⟨[kRow, ⟨2, "n2", KeyType.ecdsa, "P-256", [], 1000, [0, 1, 2], [3, 4]⟩], 3, []⟩ rfl,
   claim_C3.2.1 kEnv kDB "imp" KeyType.rsa none [9] [5] []
      ⟨2, "imp", KeyType.rsa, "", [], 1000, [0, 9], [5]⟩
      ⟨[kRow, ⟨2, "imp", KeyType.rsa, "", [], 1000, [0, 9], [5]⟩], 3, []⟩ rfl,
   claim_C3.2.2.1 kDB 1 ⟨1, "k1", KeyType.ecdsa, "P-256", [], 500, [], [3, 4]⟩ rfl,
   claim_C3.2.2.2.1 kDB 10 none ⟨1, "k1", KeyType.ecdsa, "P-256", [], 500, [], [3, 4]⟩
      (by decide),
   claim_C3.2.2.2.2.1 kEnv kDB 1 [42] DataType.raw [7, 9, 42] rfl,
   claim_C3.2.2.2.2.2 kDB 1 "z" []
      ⟨1, "z", KeyType.ecdsa, "P-256", [], 500, [0, 1, 2], [3, 4]⟩ (by decide)⟩

/-! ### Claim C8 -/

/-- C8: updating a non-existent key id fails with `ResourceNotFound`,
determined by the zero affected-row count of the UPDATE (the definition runs
the UPDATE first and inspects the count — no pre-read), and the returned
database is exactly the one it was given: no stored key's name or tags are
mutated by the failed call. -/
theorem claim_C8 (db : KsDB) (id : Nat) (n : String) (tg : List (String × String))
    (habs : ∀ r ∈ db.rows, r.id ≠ id) :
    ksUpdate db id n tg = (.error .resourceNotFound, db) := by
  have hmap := map_update_id id n tg db.rows habs
  have hfil : (db.rows.filter (fun r => r.id = id)).length = 0 := by
    rw [List.length_eq_zero, List.filter_eq_nil_iff]
    intro r hr
    simpa using habs r hr
  simp only [ksUpdate, hmap, hfil]
  rfl

/-- C8 witness: no row of the witness database has id 99. -/
theorem claim_C8_witness :
    ksUpdate kDB 99 "x" [] = (.error .resourceNotFound, kDB) :=
  claim_C8 kDB 99 "x" [] (by decide)

/-! ### Claim C4 -/

/-- C4: `Delete(id)` is rejected with a (database) error and the key is left
in place whenever a wallet still references the key (the reference check is
the spec-modelled `walletReferences`, since the wallets schema is not among
the provided sources), and fails `ResourceNotFound` when the key is absent —
in both cases the database is returned unchanged. -/
theorem claim_C4 (db : KsDB) (id : Nat) :
    ((findRow id db.rows).isSome = true → walletReferences db id = true →
      ksDelete db id = (.error .databaseError, db))
    ∧ (findRow id db.rows = none →
      ksDelete db id = (.error .resourceNotFound, db)) := by
  constructor
  · intro h1 h2
    simp only [ksDelete]
    rw [if_pos ⟨h1, h2⟩]
  · intro h
    have habs := findRow_none id db.rows h
    have hfil : db.rows.filter (fun r => ¬ r.id = id) = db.rows :=
      filter_ne_id id db.rows habs
    have hcond : ¬ ((findRow id db.rows).isSome = true ∧ walletReferences db id = true) := by
      rw [h]
      simp
    simp only [ksDelete]
    rw [if_neg hcond, hfil, if_pos rfl]

/-- C4 witness: key 1 is wallet-referenced in `kDBRef`, so Delete is rejected
and the row stays; id 99 is absent from `kDB`, so Delete is not-found. -/
theorem claim_C4_witness :
    ksDelete kDBRef 1 = (.error .databaseError, kDBRef)
    ∧ ksDelete kDB 99 = (.error .resourceNotFound, kDB) :=
  ⟨(claim_C4 kDBRef 1).1 (by decide) (by decide),
   (claim_C4 kDB 99).2 (by decide)⟩

/-! ### Modular arithmetic lemmas for the curve -/

theorem secpP_pos : (0 : Int) < secpP := by decide

theorem secpP_odd : secpP % 2 = 1 := by decide

theorem emod_modEq (a m : Int) : a % m ≡ a [ZMOD m] :=
  Int.emod_emod_of_dvd a (dvd_refl m)

/-- The extended-Euclid value stored by `modInverse` really is an inverse. -/
theorem modInverse_spec (a m : Int) (ha : 0 ≤ a) (hm : 0 < m)
    (hg : Int.gcd a m = 1) :
    a * ((Nat.gcdA a.toNat m.toNat) % m) ≡ 1 [ZMOD m] := by
  have h1 : a.toNat = a.natAbs := by omega
  have h2 : m.toNat = m.natAbs := by omega
  have hg' : Nat.gcd a.toNat m.toNat = 1 := by
    unfold Int.gcd at hg
    rw [h1, h2]
    exact hg
  have hb := Nat.gcd_eq_gcd_ab a.toNat m.toNat
  rw [hg'] at hb
  rw [Int.toNat_of_nonneg ha, Int.toNat_of_nonneg (le_of_lt hm)] at hb
  -- hb : (1 : ℤ) = a * gcdA + m * gcdB
  have hstep : a * (Nat.gcdA a.toNat m.toNat % m) ≡ a * Nat.gcdA a.toNat m.toNat [ZMOD m] :=
    Int.ModEq.mul_left a (emod_modEq _ m)
  have hone : a * Nat.gcdA a.toNat m.toNat ≡ 1 [ZMOD m] := by
    rw [Int.ModEq]
    have hdvd : m ∣ 1 - a * Nat.gcdA a.toNat m.toNat :=
      ⟨Nat.gcdB a.toNat m.toNat, by push_cast at hb ⊢; linarith⟩
    exact (Int.modEq_iff_dvd.mpr hdvd)
  exact hstep.trans hone

/-- Coprimality to `m` transfers along negation modulo `m`. -/
theorem gcd_transfer (a b m : Int) (hg : Int.gcd a m = 1)
    (hab : a ≡ -b [ZMOD m]) : Int.gcd b m = 1 := by
  have hd := hab.dvd
  obtain ⟨k, hk⟩ := hd
  rw [Int.gcd_eq_one_iff_coprime] at hg ⊢
  obtain ⟨u, v, huv⟩ := hg
  have hbval : b = -a - m * k := by linarith
  subst hbval
  exact ⟨-u, v - u * k, by linear_combination huv⟩

/-- Two modular inverses of mutually negated elements are mutually negated. -/
theorem inv_neg_modEq (d d' u u' m : Int)
    (h1 : d * u ≡ 1 [ZMOD m]) (h2 : d' * u' ≡ 1 [ZMOD m])
    (hd : d' ≡ -d [ZMOD m]) : u' ≡ -u [ZMOD m] := by
  have h3 : d * u' ≡ -1 [ZMOD m] := by
    have h4 : d' * u' ≡ (-d) * u' [ZMOD m] := hd.mul_right u'
    have h5 : (-d) * u' ≡ 1 [ZMOD m] := h4.symm.trans h2
    have h6 : -((-d) * u') ≡ -1 [ZMOD m] := h5.neg
    calc d * u' = -((-d) * u') := by ring
    _ ≡ -1 [ZMOD m] := h6
  calc u' = u' * 1 := by ring
  _ ≡ u' * (d * u) [ZMOD m] := (Int.ModEq.mul_left u' h1).symm
  _ = (d * u') * u := by ring
  _ ≡ (-1) * u [ZMOD m] := h3.mul_right u
  _ = -u := by ring

/-- The generic slope case of `Add` is symmetric in its two input points. -/
theorem secpAddGeneral_comm (x1 y1 x2 y2 : Int) :
    secpAddGeneral x1 y1 x2 y2 = secpAddGeneral x2 y2 x1 y1 := by
  have hd1 : ((x1 - x2) % secpP) ≡ -((x2 - x1) % secpP) [ZMOD secpP] := by
    have a1 := emod_modEq (x1 - x2) secpP
    have a2 := (emod_modEq (x2 - x1) secpP).neg
    have h3 : (-(x2 - x1) : Int) = x1 - x2 := by ring
    rw [h3] at a2
    exact a1.trans a2.symm
  by_cases hgcd : Int.gcd ((x2 - x1) % secpP) secpP = 1
  · have hd2 : ((x2 - x1) % secpP) ≡ -((x1 - x2) % secpP) [ZMOD secpP] := by
      have h5 := hd1.neg
      have h6 : (- -((x2 - x1) % secpP) : Int) = (x2 - x1) % secpP := by ring
      rw [h6] at h5
      exact h5.symm
    have hgcd' : Int.gcd ((x1 - x2) % secpP) secpP = 1 :=
      gcd_transfer _ _ _ hgcd hd2
    simp only [secpAddGeneral, modInverse, hgcd, hgcd', if_pos]
    set d : Int := (x2 - x1) % secpP with hd_def
    set d' : Int := (x1 - x2) % secpP with hd'_def
    set u : Int := Nat.gcdA d.toNat secpP.toNat % secpP with hu_def
    set u' : Int := Nat.gcdA d'.toNat secpP.toNat % secpP with hu'_def
    set dy : Int := (y2 - y1) % secpP with hdy_def
    set dy' : Int := (y1 - y2) % secpP with hdy'_def
    have hdpos : 0 ≤ d := Int.emod_nonneg _ (by decide)
    have hd'pos : 0 ≤ d' := Int.emod_nonneg _ (by decide)
    have hinv : d * u ≡ 1 [ZMOD secpP] := modInverse_spec d secpP hdpos secpP_pos hgcd
    have hinv' : d' * u' ≡ 1 [ZMOD secpP] := modInverse_spec d' secpP hd'pos secpP_pos hgcd'
    have huu' : u' ≡ -u [ZMOD secpP] := inv_neg_modEq d d' u u' secpP hinv hinv' hd1
    have hdy1 : dy' ≡ -dy [ZMOD secpP] := by
      have a1 := emod_modEq (y1 - y2) secpP
      have a2 := (emod_modEq (y2 - y1) secpP).neg
      have h3 : (-(y2 - y1) : Int) = y1 - y2 := by ring
      rw [h3] at a2
      exact a1.trans a2.symm
    have hlam : (dy' * u') % secpP = (dy * u) % secpP := by
      have hmm : dy' * u' ≡ dy * u [ZMOD secpP] := by
        calc dy' * u' ≡ (-dy) * (-u) [ZMOD secpP] := hdy1.mul huu'
        _ = dy * u := by ring
      exact hmm
    rw [hlam]
    set l : Int := (dy * u) % secpP with hl_def
    have hx3 : (l * l - x2 - x1) % secpP = (l * l - x1 - x2) % secpP := by
      have h7 : (l * l - x2 - x1 : Int) = l * l - x1 - x2 := by ring
      rw [h7]
    rw [hx3]
    set x3 : Int := (l * l - x1 - x2) % secpP with hx3_def
    have key : l * (x2 - x1) ≡ dy [ZMOD secpP] := by
      calc l * (x2 - x1) ≡ (dy * u) * (x2 - x1) [ZMOD secpP] :=
            (emod_modEq (dy * u) secpP).mul_right _
      _ ≡ (dy * u) * d [ZMOD secpP] := Int.ModEq.mul_left _ (emod_modEq (x2 - x1) secpP).symm
      _ = dy * (d * u) := by ring
      _ ≡ dy * 1 [ZMOD secpP] := Int.ModEq.mul_left dy hinv
      _ = dy := by ring
    have hdy2 : dy ≡ y2 - y1 [ZMOD secpP] := emod_modEq _ _
    have hy3 : (l * (x1 - x3) - y1) % secpP = (l * (x2 - x3) - y2) % secpP := by
      have hdvd1 : secpP ∣ dy - l * (x2 - x1) := key.dvd
      have hdvd2 : secpP ∣ (y2 - y1) - dy := hdy2.dvd
      have hdvd : secpP ∣ (l * (x2 - x3) - y2) - (l * (x1 - x3) - y1) := by
        have hrew : (l * (x2 - x3) - y2) - (l * (x1 - x3) - y1)
            = -(((y2 - y1) - dy) + (dy - l * (x2 - x1))) := by ring
        rw [hrew]
        exact dvd_neg.mpr (dvd_add hdvd2 hdvd1)
      exact Int.modEq_iff_dvd.mpr hdvd
    rw [hy3]
  · have hgcd' : ¬ Int.gcd ((x1 - x2) % secpP) secpP = 1 := fun hc =>
      hgcd (gcd_transfer _ _ _ hc hd1)
    simp [secpAddGeneral, modInverse, hgcd, hgcd']

/-- `Add` is commutative on all inputs: every edge-case guard is symmetric,
and the generic slope case is `secpAddGeneral_comm`. -/
theorem secpAdd_comm (x1 y1 x2 y2 : Int) :
    secpAdd x1 y1 x2 y2 = secpAdd x2 y2 x1 y1 := by
  by_cases hP : x1 = 0 ∧ y1 = 0
  · by_cases hQ : x2 = 0 ∧ y2 = 0
    · obtain ⟨h1, h2⟩ := hP
      obtain ⟨h3, h4⟩ := hQ
      subst h1
      subst h2
      subst h3
      subst h4
      rfl
    · obtain ⟨h1, h2⟩ := hP
      subst h1
      subst h2
      simp [secpAdd, hQ]
  · by_cases hQ : x2 = 0 ∧ y2 = 0
    · obtain ⟨h3, h4⟩ := hQ
      subst h3
      subst h4
      simp [secpAdd, hP]
    · by_cases heq : x1 = x2 ∧ y1 = y2
      · obtain ⟨h1, h2⟩ := heq
        subst h1
        subst h2
        rfl
      · by_cases hneg : x1 = x2 ∧ y1 + y2 = secpP
        · obtain ⟨h1, hsum⟩ := hneg
          subst h1
          have hyne : y1 ≠ y2 := by
            intro h
            exact heq ⟨rfl, h⟩
          have hsum' : y2 + y1 = secpP := by omega
          simp [secpAdd, hP, hQ, hyne, Ne.symm hyne, hsum, hsum']
        · have heq' : ¬ (x2 = x1 ∧ y2 = y1) := by
            intro ⟨h1, h2⟩
            exact heq ⟨h1.symm, h2.symm⟩
          have hneg' : ¬ (x2 = x1 ∧ y2 + y1 = secpP) := by
            intro ⟨h1, h2⟩
            exact hneg ⟨h1.symm, by omega⟩
          simp only [secpAdd, if_neg hP, if_neg hQ, if_neg heq, if_neg hneg,
            if_neg heq', if_neg hneg']
          exact secpAddGeneral_comm x1 y1 x2 y2

/-! ### Claim C9 -/

/-- C9: the modelled secp256k1 `Add` satisfies all asserted identities, on all
integer inputs (hence in particular on every curve point): adding the
point-at-infinity representation (0,0) on either side returns the other
point; adding a point to itself delegates to `Double`; adding a point to its
negation (same x, y coordinates in range summing to p) yields (0,0); and
`Add` is commutative. -/
theorem claim_C9 :
    (∀ x y : Int, secpAdd x y 0 0 = some (x, y) ∧ secpAdd 0 0 x y = some (x, y))
    ∧ (∀ x y : Int, secpAdd x y x y = secpDouble x y)
    ∧ (∀ x1 y1 y2 : Int, 0 < y1 → y1 < secpP → y1 + y2 = secpP →
        secpAdd x1 y1 x1 y2 = some (0, 0))
    ∧ (∀ x1 y1 x2 y2 : Int, secpAdd x1 y1 x2 y2 = secpAdd x2 y2 x1 y1) := by
  refine ⟨?_, ?_, ?_, secpAdd_comm⟩
  · intro x y
    constructor
    · by_cases h : x = 0 ∧ y = 0
      · obtain ⟨hx, hy⟩ := h
        subst hx
        subst hy
        rfl
      · simp [secpAdd, h]
    · simp [secpAdd]
  · intro x y
    by_cases h : x = 0 ∧ y = 0
    · obtain ⟨hx, hy⟩ := h
      subst hx
      subst hy
      rfl
    · simp [secpAdd, h]
  · intro x1 y1 y2 hy1 hy2 hsum
    have hP : ¬ (x1 = 0 ∧ y1 = 0) := by
      intro ⟨_, h⟩
      omega
    have hQ : ¬ (x1 = 0 ∧ y2 = 0) := by
      intro ⟨_, h⟩
      omega
    have hyne : y1 ≠ y2 := by
      have hoddp := secpP_odd
      omega
    simp [secpAdd, hP, hQ, hyne, hsum]

/-- C9 witness: concrete instances, including the `TestAddErrorCase` shape
(x = 42, y₁ = 10, y₂ = p − 10, which adds to the point at infinity). -/
theorem claim_C9_witness :
    secpAdd 5 7 0 0 = some (5, 7)
    ∧ secpAdd 0 0 5 7 = some (5, 7)
    ∧ secpAdd 5 7 5 7 = secpDouble 5 7
    ∧ secpAdd 42 10 42 (secpP - 10) = some (0, 0)
    ∧ secpAdd 1 2 3 4 = secpAdd 3 4 1 2 :=
  ⟨(claim_C9.1 5 7).1, (claim_C9.1 5 7).2, claim_C9.2.1 5 7,
   claim_C9.2.2.1 42 10 (secpP - 10) (by decide) (by decide) (by ring),
   claim_C9.2.2.2 1 2 3 4⟩
